import Mathlib

/-!
Verification of the frame codec in `src/rctclient/frame.py` (python-rctclient).

The embedding translates `frame.py` line by line: bytes become `List Nat`
(entries `< 256` on real wire data), Python `int` inputs become `Int`,
`struct.pack`/`struct.unpack` become explicit fallible big-endian helpers
(`struct.error` is modelled by `Option`/an error value), and the mutable
`ReceiveFrame` object becomes a record threaded through an explicit
per-byte step function.

`types.py` (the `Command` and `FrameType` enumerations), `utils.py`
(`CRC16`) and `exceptions.py` are imported by `frame.py` but are not part
of the sources at hand; they are modelled from the spec, see the doc
comments on `Command`, `FrameType` and `CRC16`.
-/

/-- Token that starts a frame (`frame.py` line 14, `b'+'` = 0x2B). -/
def START_TOKEN : Nat := 43

/-- Token that escapes the next value (`frame.py` line 16, `b'-'` = 0x2D). -/
def ESCAPE_TOKEN : Nat := 45

/-- Length of the header (`frame.py` line 18). -/
def FRAME_LENGTH_HEADER : Nat := 1

/-- Length of a command (`frame.py` line 20). -/
def FRAME_LENGTH_COMMAND : Nat := 1

/-- Length of the length information (`frame.py` line 22). -/
def FRAME_LENGTH_LENGTH : Nat := 2

/-- 1 byte header, 1 byte command and 2 bytes length (`frame.py` line 24). -/
def FRAME_HEADER_WITH_LENGTH : Nat :=
  FRAME_LENGTH_HEADER + FRAME_LENGTH_COMMAND + FRAME_LENGTH_LENGTH

/-- Length of the CRC16 checksum (`frame.py` line 26). -/
def FRAME_LENGTH_CRC16 : Nat := 2

/-- Modelled from the spec: the `Command` enumeration lives in `types.py`,
which is not among the sources at hand.  The spec (§3) fixes the members
this codec distinguishes: read-request, write, long-write, response,
long-response, plus an explicit uninitialized sentinel used only as the
decoder's default before a command byte is known.  The byte values are
the device-firmware constants (read = 1, write = 2, long-write = 3,
response = 5, long-response = 6); the sentinel is given the otherwise
unused byte value 0. -/
inductive Command where
  | READ
  | WRITE
  | LONG_WRITE
  | RESPONSE
  | LONG_RESPONSE
  | NONE
deriving DecidableEq

/-- Wire byte value of a command (the numeric value of the Python `IntEnum`). -/
def Command.toByte : Command → Nat
  | .READ => 1
  | .WRITE => 2
  | .LONG_WRITE => 3
  | .RESPONSE => 5
  | .LONG_RESPONSE => 6
  | .NONE => 0

/-- The fallible conversion `Command(byte)` performed by the Python `IntEnum`
constructor: unmapped byte values raise `ValueError`, modelled by `none`. -/
def Command.fromByte : Nat → Option Command
  | 1 => some .READ
  | 2 => some .WRITE
  | 3 => some .LONG_WRITE
  | 5 => some .RESPONSE
  | 6 => some .LONG_RESPONSE
  | 0 => some .NONE
  | _ => none

/-- Modelled from the spec: the `FrameType` enumeration lives in `types.py`,
which is not among the sources at hand.  The spec (§3) fixes two tags,
*standard* and *plant*, whose numeric value is "an additive component
folded into the transmitted length field".  The decoder arithmetic of
`frame.py` itself (the completion target computed in `consume` and the
`data_length -= self._frame_type` subtraction in `decode`) is consistent
with the encoder's `frame_type + len(payload)` length field exactly when
the numeric value equals the byte length of the header fields the tag
implies beyond the length field: 4 (the id) for standard frames and 8
(address plus id) for plant frames.  These are the device-firmware
values. -/
inductive FrameType where
  | STANDARD
  | PLANT
deriving DecidableEq

/-- Numeric value of a frame type (the value of the Python `IntEnum`). -/
def FrameType.val : FrameType → Nat
  | .STANDARD => 4
  | .PLANT => 8

/-- One shift-and-conditionally-xor round of the CRC16-CCITT register,
keeping the register in 16 bits. -/
def crcRound (c : Nat) : Nat :=
  if 32768 ≤ c then ((c * 2) ^^^ 4129) % 65536 else (c * 2) % 65536

/-- Folding one input byte into the CRC register: xor it into the high
byte, then run eight register rounds. -/
def crcByte (c b : Nat) : Nat :=
  crcRound (crcRound (crcRound (crcRound (crcRound (crcRound (crcRound (crcRound
    (c ^^^ (b % 256) * 256))))))))

/-- Modelled from the spec: `CRC16` lives in `utils.py`, which is not among
the sources at hand.  The spec (§2, §6) requires only a deterministic
16-bit checksum over a byte sequence; the device family's algorithm is
CRC16-CCITT (polynomial 0x1021, initial value 0xFFFF, data padded with a
zero byte to even length).  All theorems below depend only on the
checksum being a function into 16 bits. -/
def CRC16 (data : List Nat) : Nat :=
  let buffer := if data.length % 2 = 1 then data ++ [0] else data
  buffer.foldl crcByte 65535

/-- `struct.pack('>B', v)`: one big-endian byte, rejecting values outside
the byte range (`struct.error`). -/
def packU8 (v : Nat) : Option (List Nat) :=
  if v < 256 then some [v] else none

/-- The two big-endian bytes of a 16-bit value. -/
def u16bytes (v : Nat) : List Nat := [v / 256, v % 256]

/-- `struct.pack('>H', v)`: two big-endian bytes, rejecting values outside
the 16-bit range (`struct.error`). -/
def packU16 (v : Nat) : Option (List Nat) :=
  if v < 65536 then some (u16bytes v) else none

/-- The four big-endian bytes of a 32-bit value. -/
def u32bytes (x : Nat) : List Nat :=
  [x / 16777216 % 256, x / 65536 % 256, x / 256 % 256, x % 256]

/-- `struct.pack('>I', x)` on a Python `int`: four big-endian bytes,
rejecting negative values and values at or above `2^32` (`struct.error`);
nothing is truncated. -/
def packU32 (x : Int) : Option (List Nat) :=
  if 0 ≤ x ∧ x < 4294967296 then some (u32bytes x.toNat) else none

/-- `struct.unpack('>H', [a, b])`. -/
def u16be (a b : Nat) : Nat := a * 256 + b

/-- `struct.unpack('>I', l[i:i+4])`: fails (`struct.error`) when the slice
is shorter than four bytes. -/
def unpackU32 (l : List Nat) (i : Nat) : Option Nat :=
  if i + 4 ≤ l.length then
    some ((l.getD i 0) * 16777216 + (l.getD (i + 1) 0) * 65536 +
          (l.getD (i + 2) 0) * 256 + l.getD (i + 3) 0)
  else none

/-- The pre-stuffing buffer of `make_frame` (`frame.py` lines 50-72): the
command byte, the length field (`frame_type + len(payload)`, two bytes for
long commands, one byte otherwise), the 4-byte address for plant frames,
the 4-byte id, the payload unless the command is `READ`, and the two
CRC16 bytes over everything before them.  Note that the length field is
computed from the raw `payload` argument even for `READ`, while the
payload bytes themselves are omitted for `READ`. -/
def frameBuf (command : Command) (id : Int) (payload : List Nat) (address : Int)
    (frame_type : FrameType) : Option (List Nat) :=
  (if command = .LONG_WRITE ∨ command = .LONG_RESPONSE then
      packU16 (frame_type.val + payload.length)
    else
      packU8 (frame_type.val + payload.length)).bind (fun lenB =>
  (if frame_type = .PLANT then packU32 address else some []).bind (fun addrB =>
  (packU32 id).bind (fun idB =>
  (fun body => (packU16 (CRC16 body)).bind (fun crcB => some (body ++ crcB)))
    (command.toByte :: (lenB ++ addrB ++ idB ++
      if command = .READ then [] else payload)))))

/-- The byte-stuffing loop of `make_frame` (`frame.py` lines 74-85): start
from `data` and append every buffer byte, preceded by the escape token
when its value is the start or escape token. -/
def stuffAppend (data : List Nat) (buf : List Nat) : List Nat :=
  buf.foldl
    (fun acc b =>
      if b = START_TOKEN ∨ b = ESCAPE_TOKEN then acc ++ [ESCAPE_TOKEN, b]
      else acc ++ [b])
    data

/-- `make_frame` (`frame.py` lines 29-85).  `none` models an uncaught
`struct.error` from one of the `struct.pack` calls. -/
def make_frame (command : Command) (id : Int) (payload : List Nat := [])
    (address : Int := 0) (frame_type : FrameType := .STANDARD) : Option (List Nat) :=
  (frameBuf command id payload address frame_type).map (stuffAppend [START_TOKEN])

/-- `SendFrame` (`frame.py` lines 88-174): a container storing the
effective inputs and the encoded byte stream. -/
structure SendFrame where
  command : Command
  id : Int
  address : Int
  frame_type : FrameType
  payload : List Nat
  data : Option (List Nat)
deriving DecidableEq

/-- `SendFrame.__init__` (`frame.py` lines 119-128): the stored payload is
emptied for `READ`, the stored address is zeroed for non-plant frames,
and the byte stream is produced by `make_frame` from the stored values. -/
def SendFrame.make (command : Command) (id : Int) (payload : List Nat := [])
    (address : Int := 0) (frame_type : FrameType := .STANDARD) : SendFrame :=
  let payload' := if command ≠ .READ then payload else []
  let address' := if frame_type = .PLANT then address else 0
  { command := command, id := id, address := address', frame_type := frame_type,
    payload := payload', data := make_frame command id payload' address' frame_type }

/-- Errors raised while decoding: `FrameCRCMismatch` (carrying the received
and the calculated checksum), the `ValueError` of an unmapped command
byte, and `struct.error` from `struct.unpack`. -/
inductive DecodeError where
  | crcMismatch (received calculated : Nat)
  | invalidCommand (byte : Nat)
  | structError
deriving DecidableEq

/-- `FrameNotComplete`, raised by the accessors of an incomplete frame. -/
inductive FrameError where
  | notComplete
deriving DecidableEq

/-- The mutable state of `ReceiveFrame` (`frame.py` lines 187-227), minus
the debug string.  Field names drop the Python underscore. -/
structure ReceiveFrame where
  complete : Bool
  crcOk : Bool
  escaping : Bool
  crc16 : Nat
  frameLength : Nat
  frameType : FrameType
  command : Command
  buffer : List Nat
  id : Nat
  data : List Nat
  address : Nat
deriving DecidableEq

/-- `ReceiveFrame.__init__` (`frame.py` lines 213-227). -/
def ReceiveFrame.new (frame_type : FrameType := .STANDARD) : ReceiveFrame :=
  { complete := false, crcOk := false, escaping := false, crc16 := 0,
    frameLength := 0, frameType := frame_type, command := .NONE,
    buffer := [], id := 0, data := [], address := 0 }

/-- The `id` property (`frame.py` lines 236-245): raises `FrameNotComplete`
before completion, afterwards returns the stored id. -/
def ReceiveFrame.getId (s : ReceiveFrame) : Except FrameError Nat :=
  if s.complete = false then .error .notComplete else .ok s.id

/-- The `data` property (`frame.py` lines 247-256). -/
def ReceiveFrame.getData (s : ReceiveFrame) : Except FrameError (List Nat) :=
  if s.complete = false then .error .notComplete else .ok s.data

/-- The `address` property (`frame.py` lines 258-267). -/
def ReceiveFrame.getAddress (s : ReceiveFrame) : Except FrameError Nat :=
  if s.complete = false then .error .notComplete else .ok s.address

/-- The `command` property (`frame.py` lines 269-274): total, no
completeness check. -/
def ReceiveFrame.getCommand (s : ReceiveFrame) : Command := s.command

/-- `complete()` (`frame.py` lines 276-281). -/
def ReceiveFrame.completeQ (s : ReceiveFrame) : Bool := s.complete

/-- `is_complete()` (`frame.py` lines 386-390). -/
def ReceiveFrame.is_complete (s : ReceiveFrame) : Bool := s.complete && s.crcOk

/-- The field-extraction half of `ReceiveFrame.decode` (`frame.py` lines
362-382), run after a successful checksum comparison: re-parse the
command byte, read the length field at the width the command dictates,
subtract the frame-type value, then extract address (plant only), id and
payload.  As in Python, partial field updates made before a raise are
kept. -/
def ReceiveFrame.decodeFields (s : ReceiveFrame) : ReceiveFrame × Option DecodeError :=
  match Command.fromByte (s.buffer.getD 1 0) with
  | none => (s, some (DecodeError.invalidCommand (s.buffer.getD 1 0)))
  | some cmd =>
    let s := { s with command := cmd }
    let dlIdx : Int × Nat :=
      if cmd = .LONG_RESPONSE ∨ cmd = .LONG_WRITE then
        ((u16be (s.buffer.getD 2 0) (s.buffer.getD 3 0) : Nat), 4)
      else
        ((s.buffer.getD 2 0 : Nat), 3)
    let dataLength : Int := dlIdx.1 - (s.frameType.val : Int)
    let idx := dlIdx.2
    if s.frameType = .PLANT then
      match unpackU32 s.buffer idx with
      | none => (s, some DecodeError.structError)
      | some a =>
        let s := { s with address := a }
        match unpackU32 s.buffer (idx + 4) with
        | none => (s, some DecodeError.structError)
        | some i =>
          let s := { s with id := i }
          ({ s with data := (s.buffer.drop (idx + 8)).take dataLength.toNat }, none)
    else
      match unpackU32 s.buffer idx with
      | none => (s, some DecodeError.structError)
      | some i =>
        let s := { s with id := i }
        ({ s with data := (s.buffer.drop (idx + 4)).take dataLength.toNat }, none)

/-- `ReceiveFrame.decode` (`frame.py` lines 348-384), continued: checksum
comparison, then field extraction via `decodeFields` above. -/
def ReceiveFrame.decode (s : ReceiveFrame) : ReceiveFrame × Option DecodeError :=
  let n := s.buffer.length
  let rcv := u16be (s.buffer.getD (n - 2) 0) (s.buffer.getD (n - 1) 0)
  let calculated := CRC16 ((s.buffer.drop 1).take (n - 3))
  let s := { s with crc16 := rcv }
  if rcv = calculated then
    ReceiveFrame.decodeFields { s with crcOk := true }
  else
    (s, some (DecodeError.crcMismatch rcv calculated))

/-- The decoder's stored completion target, as computed when the buffer
reaches four bytes (`frame.py` lines 322-331), expressed as a function of
the buffer contents at that moment and beyond (only entries 1 to 3 are
read). -/
def flBuf (buf : List Nat) : Nat :=
  (if buf.getD 1 0 = Command.LONG_RESPONSE.toByte ∨ buf.getD 1 0 = Command.LONG_WRITE.toByte then
    u16be (buf.getD 2 0) (buf.getD 3 0) + 2
  else
    buf.getD 2 0 + 1) + 2

/-- The body of `consume`'s `self._buffer += c` branch (`frame.py` lines
316-345): append the byte, set the frame length when the buffer reaches
the header size, and on reaching the completion target mark the frame
complete and decode.  Returns the new state, whether `consume` returns
early, and the raised error, if any. -/
def ReceiveFrame.addByte (s : ReceiveFrame) (d : Nat) :
    ReceiveFrame × Bool × Option DecodeError :=
  let buf := s.buffer ++ [d]
  let s1 := { s with buffer := buf }
  if FRAME_HEADER_WITH_LENGTH ≤ buf.length then
    if buf.length = FRAME_HEADER_WITH_LENGTH then
      ({ s1 with frameLength := flBuf buf }, false, none)
    else if buf.length = s.frameLength + FRAME_LENGTH_CRC16 then
      let s2 := { s1 with complete := true }
      let r := ReceiveFrame.decode s2
      (r.1, true, r.2)
    else
      (s1, false, none)
  else
    (s1, false, none)

/-- One iteration of the `for d in data` loop of `consume` (`frame.py`
lines 293-345): `.inl` is Python's `continue` path carrying the new
state, `.inr` the early `return i` path. -/
def ReceiveFrame.procByte (s : ReceiveFrame) (d : Nat) :
    ReceiveFrame ⊕ (ReceiveFrame × Option DecodeError) :=
  if s.buffer.length = 0 then
    .inl (if d = START_TOKEN then { s with buffer := [d] } else s)
  else if s.escaping then
    let a := ReceiveFrame.addByte { s with escaping := false } d
    if a.2.1 then .inr (a.1, a.2.2) else .inl a.1
  else if d = ESCAPE_TOKEN then
    .inl { s with escaping := true }
  else
    let a := ReceiveFrame.addByte s d
    if a.2.1 then .inr (a.1, a.2.2) else .inl a.1

/-- The outcome of one `consume` call: final state, number of input bytes
consumed, raised error (Python attaches the consumed count to the raised
`FrameCRCMismatch` before re-raising), and whether the call returned
early from inside the loop (i.e. a frame completed). -/
structure ConsumeResult where
  state : ReceiveFrame
  consumed : Nat
  error : Option DecodeError
  stopped : Bool
deriving DecidableEq

/-- `ReceiveFrame.consume` (`frame.py` lines 283-346). -/
def ReceiveFrame.consume (s : ReceiveFrame) : List Nat → ConsumeResult
  | [] => ⟨s, 0, none, false⟩
  | d :: rest =>
    match ReceiveFrame.procByte s d with
    | .inl s1 =>
      let r := ReceiveFrame.consume s1 rest
      ⟨r.state, r.consumed + 1, r.error, r.stopped⟩
    | .inr (s1, e) => ⟨s1, 1, e, true⟩

/-- Repeatedly calling `consume` with successive chunks, as the transport
read loop does; accumulates the consumed counts and keeps the first
raised error. -/
def feedChunks (s : ReceiveFrame) : List (List Nat) → ConsumeResult
  | [] => ⟨s, 0, none, false⟩
  | c :: cs =>
    let r := ReceiveFrame.consume s c
    let rest := feedChunks r.state cs
    ⟨rest.state, r.consumed + rest.consumed,
      match r.error with
      | some e => some e
      | none => rest.error,
      r.stopped || rest.stopped⟩

/-- The per-byte escape rule of the spec (§4.1 step 5): a buffer byte whose
value is the start or escape token is emitted preceded by one escape
token, any other byte is emitted alone. -/
def escByteSpec (b : Nat) : List Nat :=
  if b = START_TOKEN ∨ b = ESCAPE_TOKEN then [ESCAPE_TOKEN, b] else [b]

/-- The spec-side description of the stuffed stream: the concatenation of
the per-byte images under `escByteSpec`. -/
def stuffedSpec : List Nat → List Nat
  | [] => []
  | b :: l => escByteSpec b ++ stuffedSpec l

/-- The declared wire length field of a pre-stuffing buffer: two big-endian
bytes after the command byte for long commands, one byte otherwise. -/
def declaredLen (command : Command) (buf : List Nat) : Nat :=
  if command = .LONG_WRITE ∨ command = .LONG_RESPONSE then
    u16be (buf.getD 1 0) (buf.getD 2 0)
  else
    buf.getD 1 0

/-! ## Basic facts about the helpers -/

theorem crcRound_lt (c : Nat) : crcRound c < 65536 := by
  unfold crcRound
  split <;> exact Nat.mod_lt _ (by norm_num)

theorem crcByte_lt (c b : Nat) : crcByte c b < 65536 := by
  unfold crcByte
  exact crcRound_lt _

theorem foldl_crcByte_lt (l : List Nat) (c : Nat) (h : c < 65536) :
    l.foldl crcByte c < 65536 := by
  induction l generalizing c with
  | nil => simpa using h
  | cons b l ih =>
    rw [List.foldl_cons]
    exact ih _ (crcByte_lt _ _)

theorem CRC16_lt (l : List Nat) : CRC16 l < 65536 := by
  unfold CRC16
  exact foldl_crcByte_lt _ _ (by norm_num)

theorem Command.fromByte_toByte (c : Command) : Command.fromByte c.toByte = some c := by
  cases c <;> rfl

theorem Command.toByte_lt (c : Command) : c.toByte < 256 := by
  cases c <;> simp [Command.toByte]

theorem u16be_u16bytes (v : Nat) : u16be (v / 256) (v % 256) = v := by
  unfold u16be
  omega

theorem u32_recompose (x : Nat) (h : x < 4294967296) :
    (x / 16777216 % 256) * 16777216 + (x / 65536 % 256) * 65536 +
      (x / 256 % 256) * 256 + x % 256 = x := by
  omega

theorem fhwl_eq : FRAME_HEADER_WITH_LENGTH = 4 := rfl

theorem flcrc_eq : FRAME_LENGTH_CRC16 = 2 := rfl

/-- The imperative stuffing loop equals the spec-side per-byte description:
`stuffAppend init buf = init ++ stuffedSpec buf`. -/
theorem stuffAppend_eq_spec (buf : List Nat) : ∀ init : List Nat,
    stuffAppend init buf = init ++ stuffedSpec buf := by
  induction buf with
  | nil => intro init; simp [stuffAppend, stuffedSpec]
  | cons b l ih =>
    intro init
    unfold stuffAppend at ih ⊢
    simp only [List.foldl_cons, stuffedSpec]
    by_cases hb : b = START_TOKEN ∨ b = ESCAPE_TOKEN
    · rw [if_pos hb, ih, escByteSpec, if_pos hb, List.append_assoc]
    · rw [if_neg hb, ih, escByteSpec, if_neg hb, List.append_assoc]

/-! ## Step lemmas for the decoder state machine -/

theorem rf_escaping_self (s : ReceiveFrame) (h : s.escaping = false) :
    ({ s with escaping := false } : ReceiveFrame) = s := by
  rw [← h]

theorem addByte_small (s : ReceiveFrame) (d : Nat) (h : s.buffer.length + 1 < 4) :
    s.addByte d = ({ s with buffer := s.buffer ++ [d] }, false, none) := by
  unfold ReceiveFrame.addByte
  rw [fhwl_eq]
  simp only [List.length_append, List.length_cons, List.length_nil]
  rw [if_neg (by omega)]

theorem addByte_set_fl (s : ReceiveFrame) (d : Nat) (h : s.buffer.length + 1 = 4) :
    s.addByte d =
      ({ s with buffer := s.buffer ++ [d], frameLength := flBuf (s.buffer ++ [d]) },
        false, none) := by
  unfold ReceiveFrame.addByte
  rw [fhwl_eq]
  simp only [List.length_append, List.length_cons, List.length_nil]
  rw [if_pos (by omega), if_pos (by omega)]

theorem addByte_mid (s : ReceiveFrame) (d : Nat) (h5 : 5 ≤ s.buffer.length + 1)
    (hne : s.buffer.length + 1 ≠ s.frameLength + 2) :
    s.addByte d = ({ s with buffer := s.buffer ++ [d] }, false, none) := by
  unfold ReceiveFrame.addByte
  rw [fhwl_eq, flcrc_eq]
  simp only [List.length_append, List.length_cons, List.length_nil]
  rw [if_pos (by omega), if_neg (by omega), if_neg (by omega)]

theorem addByte_fire (s : ReceiveFrame) (d : Nat) (h5 : 5 ≤ s.buffer.length + 1)
    (heq : s.buffer.length + 1 = s.frameLength + 2) :
    s.addByte d =
      ((ReceiveFrame.decode { s with buffer := s.buffer ++ [d], complete := true }).1, true,
       (ReceiveFrame.decode { s with buffer := s.buffer ++ [d], complete := true }).2) := by
  unfold ReceiveFrame.addByte
  rw [fhwl_eq, flcrc_eq]
  simp only [List.length_append, List.length_cons, List.length_nil]
  rw [if_pos (by omega), if_neg (by omega), if_pos (by omega)]

theorem procByte_empty_start (s : ReceiveFrame) (h : s.buffer = []) :
    s.procByte 43 = .inl { s with buffer := [43] } := by
  unfold ReceiveFrame.procByte
  rw [if_pos (by simp [h])]
  rfl

theorem procByte_empty_skip (s : ReceiveFrame) (d : Nat) (h : s.buffer = [])
    (hd : d ≠ 43) : s.procByte d = .inl s := by
  unfold ReceiveFrame.procByte
  rw [if_pos (by simp [h]), if_neg (by simpa [START_TOKEN] using hd)]

theorem procByte_escape_set (s : ReceiveFrame) (h : s.buffer ≠ [])
    (he : s.escaping = false) : s.procByte 45 = .inl { s with escaping := true } := by
  unfold ReceiveFrame.procByte
  rw [if_neg (by simp [h]), if_neg (by simp [he])]
  rfl

theorem procByte_escaped (s : ReceiveFrame) (d : Nat) (h : s.buffer ≠ [])
    (he : s.escaping = true) :
    s.procByte d =
      (if (ReceiveFrame.addByte { s with escaping := false } d).2.1 then
        .inr ((ReceiveFrame.addByte { s with escaping := false } d).1,
              (ReceiveFrame.addByte { s with escaping := false } d).2.2)
      else .inl (ReceiveFrame.addByte { s with escaping := false } d).1) := by
  unfold ReceiveFrame.procByte
  rw [if_neg (by simp [h]), if_pos (by simp [he])]

theorem procByte_plain (s : ReceiveFrame) (d : Nat) (h : s.buffer ≠ [])
    (he : s.escaping = false) (hd : d ≠ 45) :
    s.procByte d =
      (if (ReceiveFrame.addByte s d).2.1 then
        .inr ((ReceiveFrame.addByte s d).1, (ReceiveFrame.addByte s d).2.2)
      else .inl (ReceiveFrame.addByte s d).1) := by
  unfold ReceiveFrame.procByte
  rw [if_neg (by simp [h]), if_neg (by simp [he]), if_neg (by simpa [ESCAPE_TOKEN] using hd)]

theorem consume_nil (s : ReceiveFrame) : s.consume [] = ⟨s, 0, none, false⟩ := rfl

theorem consume_cons_inl (s : ReceiveFrame) (d : Nat) (rest : List Nat)
    (s1 : ReceiveFrame) (h : s.procByte d = .inl s1) :
    s.consume (d :: rest) =
      ⟨(s1.consume rest).state, (s1.consume rest).consumed + 1,
       (s1.consume rest).error, (s1.consume rest).stopped⟩ := by
  simp [ReceiveFrame.consume, h]

theorem consume_cons_inr (s : ReceiveFrame) (d : Nat) (rest : List Nat)
    (s1 : ReceiveFrame) (e : Option DecodeError) (h : s.procByte d = .inr (s1, e)) :
    s.consume (d :: rest) = ⟨s1, 1, e, true⟩ := by
  simp [ReceiveFrame.consume, h]

theorem procByte_escaped_self (s : ReceiveFrame) (d : Nat) (h : s.buffer ≠ [])
    (he : s.escaping = false) :
    ReceiveFrame.procByte { s with escaping := true } d =
      (if (s.addByte d).2.1 then
        .inr ((s.addByte d).1, (s.addByte d).2.2)
      else .inl (s.addByte d).1) := by
  have h2 : ({ { s with escaping := true } with escaping := false } : ReceiveFrame) = s := by
    cases s
    subst he
    rfl
  unfold ReceiveFrame.procByte
  rw [if_neg (by simpa using h)]
  rw [if_pos rfl]
  rw [h2]

/-- Feeding one spec-stuffed byte group to `consume` when the buffer is
already synchronized: the group collapses to a single `addByte`, early
return case. -/
theorem consume_group_stop (s : ReceiveFrame) (b : Nat) (tail : List Nat)
    (s2 : ReceiveFrame) (e : Option DecodeError)
    (hb : s.buffer ≠ []) (he : s.escaping = false)
    (ha : s.addByte b = (s2, true, e)) :
    s.consume (escByteSpec b ++ tail) = ⟨s2, (escByteSpec b).length, e, true⟩ := by
  by_cases hesc : b = START_TOKEN ∨ b = ESCAPE_TOKEN
  · rw [escByteSpec, if_pos hesc]
    simp only [ESCAPE_TOKEN, List.cons_append, List.nil_append, List.length_cons,
      List.length_nil]
    rw [consume_cons_inl _ _ _ _ (procByte_escape_set s hb he)]
    rw [consume_cons_inr _ _ _ s2 e (by rw [procByte_escaped_self s b hb he, ha]; rfl)]
  · rw [escByteSpec, if_neg hesc]
    simp only [List.cons_append, List.nil_append, List.length_cons, List.length_nil]
    rw [consume_cons_inr _ _ _ s2 e
      (by
        rw [procByte_plain s b hb he (by intro hc; exact hesc (Or.inr (by simpa [ESCAPE_TOKEN] using hc))), ha]
        rfl)]

/-- Feeding one spec-stuffed byte group to `consume` when the buffer is
already synchronized: the group collapses to a single `addByte`, continue
case. -/
theorem consume_group_go (s : ReceiveFrame) (b : Nat) (tail : List Nat)
    (s2 : ReceiveFrame)
    (hb : s.buffer ≠ []) (he : s.escaping = false)
    (ha : s.addByte b = (s2, false, none)) :
    s.consume (escByteSpec b ++ tail) =
      ⟨(s2.consume tail).state, (s2.consume tail).consumed + (escByteSpec b).length,
       (s2.consume tail).error, (s2.consume tail).stopped⟩ := by
  by_cases hesc : b = START_TOKEN ∨ b = ESCAPE_TOKEN
  · rw [escByteSpec, if_pos hesc]
    simp only [ESCAPE_TOKEN, List.cons_append, List.nil_append, List.length_cons,
      List.length_nil]
    rw [consume_cons_inl _ _ _ _ (procByte_escape_set s hb he)]
    rw [consume_cons_inl _ _ _ s2 (by rw [procByte_escaped_self s b hb he, ha]; rfl)]
  · rw [escByteSpec, if_neg hesc]
    simp only [List.cons_append, List.nil_append, List.length_cons, List.length_nil]
    rw [consume_cons_inl _ _ _ s2
      (by
        rw [procByte_plain s b hb he (by intro hc; exact hesc (Or.inr (by simpa [ESCAPE_TOKEN] using hc))), ha]
        rfl)]

/-- The decoder state at the moment of completion: full de-stuffed buffer,
stored frame length, completeness flag set, about to run `decode`. -/
def completedState (s : ReceiveFrame) (body : List Nat) : ReceiveFrame :=
  { s with buffer := (43 :: body), frameLength := flBuf (43 :: body), complete := true }

theorem flBuf_append (l t : List Nat) (h : 3 ≤ l.length) :
    flBuf (43 :: (l ++ t)) = flBuf (43 :: l) := by
  match l, h with
  | a :: b :: c :: l2, _ =>
    simp [flBuf, List.getD_cons_succ, List.getD_cons_zero]

/-- Running `consume` over the spec-stuffed remainder of a well-sized frame
body: starting synchronized (buffer `43 :: pre`, not escaping, frame
length stored once three body bytes are in), the decoder de-stuffs every
remaining byte, completes exactly at the last one, decodes, and reports
the whole input as consumed. -/
theorem consume_stuffed (body : List Nat) (h4 : 4 ≤ body.length)
    (hfl : flBuf (43 :: body) + 1 = body.length) :
    ∀ (rest pre : List Nat) (s : ReceiveFrame),
      body = pre ++ rest → rest ≠ [] →
      s.buffer = 43 :: pre → s.escaping = false →
      (3 ≤ pre.length → s.frameLength = flBuf (43 :: body)) →
      s.consume (stuffedSpec rest) =
        ⟨(ReceiveFrame.decode (completedState s body)).1,
         (stuffedSpec rest).length,
         (ReceiveFrame.decode (completedState s body)).2,
         true⟩ := by
  intro rest
  induction rest with
  | nil => intro pre s hsplit hne _ _ _; exact absurd rfl hne
  | cons b rest2 ih =>
    intro pre s hsplit hne hbuf hesc hflinv
    have hblen : s.buffer.length = pre.length + 1 := by rw [hbuf]; simp
    have hbne : s.buffer ≠ [] := by rw [hbuf]; simp
    have hlensum : body.length = pre.length + rest2.length + 1 := by
      rw [hsplit]; simp [List.length_append]; omega
    rcases eq_or_ne rest2 [] with hr2 | hr2
    · subst hr2
      simp only [List.length_nil] at hlensum
      have hpre3 : 3 ≤ pre.length := by omega
      have hFL : s.frameLength = flBuf (43 :: body) := hflinv hpre3
      have hfire : s.addByte b =
          ((ReceiveFrame.decode { s with buffer := s.buffer ++ [b], complete := true }).1, true,
           (ReceiveFrame.decode { s with buffer := s.buffer ++ [b], complete := true }).2) :=
        addByte_fire s b (by omega) (by omega)
      have hbb : s.buffer ++ [b] = 43 :: body := by
        rw [hbuf, hsplit]; simp
      have hstate : ({ s with buffer := s.buffer ++ [b], complete := true } : ReceiveFrame)
          = completedState s body := by
        unfold completedState
        rw [hbb, ← hFL]
      rw [stuffedSpec]
      rw [consume_group_stop s b (stuffedSpec []) _ _ hbne hesc hfire]
      rw [hstate]
      simp [stuffedSpec]
    · have hr2len : 0 < rest2.length := List.length_pos.mpr hr2
      obtain ⟨s2, hstep, hbuf2, hesc2, hfl2, hcol⟩ :
          ∃ s2, s.addByte b = (s2, false, none) ∧ s2.buffer = 43 :: (pre ++ [b]) ∧
            s2.escaping = false ∧
            (3 ≤ (pre ++ [b]).length → s2.frameLength = flBuf (43 :: body)) ∧
            completedState s2 body = completedState s body := by
        by_cases hp : pre.length + 2 < 4
        · refine ⟨{ s with buffer := s.buffer ++ [b] }, addByte_small s b (by omega), ?_, hesc,
            ?_, rfl⟩
          · rw [hbuf]; simp
          · intro h3
            exfalso
            simp [List.length_append] at h3
            omega
        · by_cases hp4 : pre.length + 2 = 4
          · refine ⟨{ s with buffer := s.buffer ++ [b], frameLength := flBuf (s.buffer ++ [b]) },
              addByte_set_fl s b (by omega), ?_, hesc, ?_, rfl⟩
            · rw [hbuf]; simp
            · intro _
              show flBuf (s.buffer ++ [b]) = flBuf (43 :: body)
              rw [hbuf]
              rw [show ((43 :: pre) ++ [b] : List Nat) = 43 :: (pre ++ [b]) from by simp]
              rw [hsplit]
              rw [show (pre ++ b :: rest2 : List Nat) = (pre ++ [b]) ++ rest2 from by simp]
              exact (flBuf_append (pre ++ [b]) rest2 (by simp [List.length_append]; omega)).symm
          · have hp3 : 3 ≤ pre.length := by omega
            have hFL : s.frameLength = flBuf (43 :: body) := hflinv hp3
            refine ⟨{ s with buffer := s.buffer ++ [b] },
              addByte_mid s b (by omega) (by omega), ?_, hesc, fun _ => hFL, rfl⟩
            rw [hbuf]; simp
      rw [stuffedSpec]
      rw [consume_group_go s b (stuffedSpec rest2) s2 hbne hesc hstep]
      rw [ih (pre ++ [b]) s2 (by rw [hsplit]; simp) hr2 hbuf2 hesc2 hfl2]
      rw [hcol]
      simp only [stuffedSpec, List.length_append, ConsumeResult.mk.injEq, true_and, and_true]
      omega

theorem buffer_parts (s : ReceiveFrame) (mid : List Nat) (x y : Nat)
    (hbuf : s.buffer = 43 :: (mid ++ [x, y])) :
    s.buffer.getD (s.buffer.length - 2) 0 = x ∧
    s.buffer.getD (s.buffer.length - 1) 0 = y ∧
    (s.buffer.drop 1).take (s.buffer.length - 3) = mid := by
  have hidx2 : ((43 : Nat) :: (mid ++ [x, y])).length - 2 = mid.length + 1 := by
    simp [List.length_append]
  have hidx1 : ((43 : Nat) :: (mid ++ [x, y])).length - 1 = mid.length + 2 := by
    simp [List.length_append]
  have hidx3 : ((43 : Nat) :: (mid ++ [x, y])).length - 3 = mid.length := by
    simp [List.length_append]
  refine ⟨?_, ?_, ?_⟩
  · rw [hbuf, hidx2, ← List.cons_append]
    rw [List.getD_append_right _ _ _ _ (by simp)]
    simp
  · rw [hbuf, hidx1, ← List.cons_append]
    rw [List.getD_append_right _ _ _ _ (by simp)]
    simp
  · rw [hbuf, hidx3]
    simp only [List.drop_succ_cons, List.drop_zero]
    rw [show ([x, y] : List Nat) = [x] ++ [y] from rfl, ← List.append_assoc]
    rw [List.take_append_of_le_length (by simp)]
    rw [List.take_left]

theorem decode_split (s : ReceiveFrame) (core : List Nat)
    (hbuf : s.buffer = 43 :: (core ++ u16bytes (CRC16 core))) :
    s.decode = ReceiveFrame.decodeFields { s with crc16 := CRC16 core, crcOk := true } := by
  obtain ⟨h1, h2, h3⟩ := buffer_parts s core (CRC16 core / 256) (CRC16 core % 256) (by rw [hbuf]; rfl)
  simp only [ReceiveFrame.decode]
  rw [h1, h2, h3, u16be_u16bytes]
  rw [if_pos rfl]

theorem decode_mismatch (s : ReceiveFrame) (mid : List Nat) (x y : Nat)
    (hbuf : s.buffer = 43 :: (mid ++ [x, y]))
    (hne : u16be x y ≠ CRC16 mid) :
    s.decode =
      ({ s with crc16 := u16be x y },
       some (DecodeError.crcMismatch (u16be x y) (CRC16 mid))) := by
  obtain ⟨h1, h2, h3⟩ := buffer_parts s mid x y hbuf
  simp only [ReceiveFrame.decode]
  rw [h1, h2, h3]
  rw [if_neg hne]

/-- The pre-checksum part of the pre-stuffing buffer of a frame whose
`struct.pack` calls all succeed, written as a pure value (the `buf` of
`frame.py` lines 51-68 just before the checksum is appended). -/
def frameCore (c : Command) (idN : Nat) (p : List Nat) (aN : Nat) (ft : FrameType) : List Nat :=
  c.toByte ::
    ((if c = .LONG_WRITE ∨ c = .LONG_RESPONSE then u16bytes (ft.val + p.length)
      else [ft.val + p.length]) ++
     (if ft = .PLANT then u32bytes aN else []) ++ u32bytes idN ++
     (if c = .READ then [] else p))

/-- The full pre-stuffing buffer including the trailing checksum bytes
(the `buf` of `frame.py` line 72). -/
def frameBody (c : Command) (idN : Nat) (p : List Nat) (aN : Nat) (ft : FrameType) : List Nat :=
  frameCore c idN p aN ft ++ u16bytes (CRC16 (frameCore c idN p aN ft))

theorem packU32_natCast (n : Nat) (h : n < 4294967296) :
    packU32 (n : Int) = some (u32bytes n) := by
  unfold packU32
  rw [if_pos ⟨Int.natCast_nonneg n, by exact_mod_cast h⟩]
  norm_num

theorem frameBuf_eq (c : Command) (idN aN : Nat) (p : List Nat) (ft : FrameType)
    (hid : idN < 4294967296)
    (ha : ft = .PLANT → aN < 4294967296)
    (hlen : ft.val + p.length <
      if c = .LONG_WRITE ∨ c = .LONG_RESPONSE then 65536 else 256) :
    frameBuf c (idN : Int) p (aN : Int) ft = some (frameBody c idN p aN ft) := by
  cases ft with
  | STANDARD =>
    simp only [FrameType.val] at hlen
    by_cases hL : c = .LONG_WRITE ∨ c = .LONG_RESPONSE
    · rw [if_pos hL] at hlen
      simp [frameBuf, frameBody, frameCore, packU16, packU8, FrameType.val, hL, hlen,
        packU32_natCast _ hid, CRC16_lt]
    · rw [if_neg hL] at hlen
      simp [frameBuf, frameBody, frameCore, packU16, packU8, FrameType.val, hL, hlen,
        packU32_natCast _ hid, CRC16_lt]
  | PLANT =>
    simp only [FrameType.val] at hlen
    by_cases hL : c = .LONG_WRITE ∨ c = .LONG_RESPONSE
    · rw [if_pos hL] at hlen
      simp [frameBuf, frameBody, frameCore, packU16, packU8, FrameType.val, hL, hlen,
        packU32_natCast _ hid, packU32_natCast _ (ha rfl), CRC16_lt]
    · rw [if_neg hL] at hlen
      simp [frameBuf, frameBody, frameCore, packU16, packU8, FrameType.val, hL, hlen,
        packU32_natCast _ hid, packU32_natCast _ (ha rfl), CRC16_lt]

theorem getD_append_plus (pre rest : List Nat) (k d : Nat) :
    (pre ++ rest).getD (pre.length + k) d = rest.getD k d := by
  induction pre with
  | nil => simp
  | cons a l ih =>
    simpa [List.getD_cons_succ, Nat.succ_add] using ih

theorem unpackU32_at (pre : List Nat) (v : Nat) (tail : List Nat) (hv : v < 4294967296) :
    unpackU32 (pre ++ (u32bytes v ++ tail)) pre.length = some v := by
  unfold unpackU32
  rw [if_pos (by simp [List.length_append, u32bytes])]
  have h0 : (pre ++ (u32bytes v ++ tail)).getD pre.length 0 = v / 16777216 % 256 := by
    have h := getD_append_plus pre (u32bytes v ++ tail) 0 0
    simp [u32bytes] at h ⊢
    simp [h]
  have h1 : (pre ++ (u32bytes v ++ tail)).getD (pre.length + 1) 0 = v / 65536 % 256 := by
    have h := getD_append_plus pre (u32bytes v ++ tail) 1 0
    simp [u32bytes] at h ⊢
    simp [h]
  have h2 : (pre ++ (u32bytes v ++ tail)).getD (pre.length + 2) 0 = v / 256 % 256 := by
    have h := getD_append_plus pre (u32bytes v ++ tail) 2 0
    simp [u32bytes] at h ⊢
    simp [h]
  have h3 : (pre ++ (u32bytes v ++ tail)).getD (pre.length + 3) 0 = v % 256 := by
    have h := getD_append_plus pre (u32bytes v ++ tail) 3 0
    simp [u32bytes] at h ⊢
    simp [h]
  rw [h0, h1, h2, h3, Option.some.injEq]
  exact u32_recompose v hv

theorem drop_take_at (pre p tail : List Nat) :
    ((pre ++ (p ++ tail)).drop pre.length).take p.length = p := by
  rw [List.drop_left, List.take_left]

theorem toByte_long_iff (c : Command) :
    (c.toByte = 6 ∨ c.toByte = 3) ↔ (c = .LONG_WRITE ∨ c = .LONG_RESPONSE) := by
  cases c <;> simp [Command.toByte]

/-- The de-stuffed buffer of an encoder-produced frame satisfies the
decoder's own sizing discipline: the completion target stored from the
header equals the buffer length the frame actually has. -/
theorem frameBody_wf (c : Command) (idN aN : Nat) (p : List Nat) (ft : FrameType)
    (hREAD : c = .READ → p = []) :
    flBuf (43 :: frameBody c idN p aN ft) + 1 = (frameBody c idN p aN ft).length ∧
    4 ≤ (frameBody c idN p aN ft).length := by
  have hplen : (if c = .READ then ([] : List Nat) else p).length = p.length := by
    by_cases hR : c = .READ
    · rw [if_pos hR, hREAD hR]
    · rw [if_neg hR]
  by_cases hL : c = .LONG_WRITE ∨ c = .LONG_RESPONSE
  · rcases hL with rfl | rfl <;> cases ft <;> refine ⟨?_, ?_⟩ <;>
      simp [flBuf, frameBody, frameCore, u16bytes, u32bytes, Command.toByte, FrameType.val,
        u16be, List.getD_cons_succ, List.getD_cons_zero, List.length_append,
        List.cons_append, List.append_assoc] <;> omega
  · have hne : ¬(c.toByte = Command.LONG_RESPONSE.toByte ∨ c.toByte = Command.LONG_WRITE.toByte) := by
      intro hcon
      apply hL
      cases c <;> simp [Command.toByte] at hcon ⊢
    cases ft <;> refine ⟨?_, ?_⟩ <;>
      simp [flBuf, frameBody, frameCore, u16bytes, u32bytes, FrameType.val,
        u16be, hne, hplen, hL, List.getD_cons_succ, List.getD_cons_zero, List.length_append,
        List.cons_append, List.append_assoc] <;> omega

/-- Field extraction on an encoder-produced buffer recovers the original
command, id, effective address and effective payload. -/
theorem decodeFields_frameBody (c : Command) (idN aN : Nat) (p : List Nat) (ft : FrameType)
    (s : ReceiveFrame)
    (hid : idN < 4294967296) (ha : ft = .PLANT → aN < 4294967296)
    (hREAD : c = .READ → p = [])
    (hbuf : s.buffer = 43 :: frameBody c idN p aN ft)
    (hft : s.frameType = ft) :
    ReceiveFrame.decodeFields s =
      ({ s with
          command := c, address := (if ft = .PLANT then aN else s.address), id := idN,
          data := p }, none) := by
  by_cases hL : c = .LONG_WRITE ∨ c = .LONG_RESPONSE
  · have hcb : s.buffer.getD 1 0 = c.toByte := by
      rw [hbuf]
      simp [frameBody, frameCore, List.getD_cons_succ, List.getD_cons_zero, List.cons_append]
    rcases hL with rfl | rfl <;> cases ft
    ·
      have hsh : s.buffer = [43, Command.LONG_WRITE.toByte, (4 + p.length) / 256,
          (4 + p.length) % 256] ++
          (u32bytes idN ++ (p ++ u16bytes (CRC16 (frameCore .LONG_WRITE idN p aN .STANDARD)))) := by
        rw [hbuf]
        simp [frameBody, frameCore, u16bytes, u32bytes, FrameType.val,
          List.cons_append, List.append_assoc]
      have hg2 : s.buffer.getD 2 0 = (4 + p.length) / 256 := by
        rw [hsh]; simp [List.getD_cons_succ, List.getD_cons_zero, List.cons_append]
      have hg3 : s.buffer.getD 3 0 = (4 + p.length) % 256 := by
        rw [hsh]; simp [List.getD_cons_succ, List.getD_cons_zero, List.cons_append]
      have hui : unpackU32 s.buffer 4 = some idN := by
        rw [hsh]
        exact unpackU32_at [43, Command.LONG_WRITE.toByte, (4 + p.length) / 256,
          (4 + p.length) % 256] idN _ hid
      have hdata : (s.buffer.drop 8).take p.length = p := by
        rw [hsh, ← List.append_assoc]
        exact drop_take_at ([43, Command.LONG_WRITE.toByte, (4 + p.length) / 256,
          (4 + p.length) % 256] ++ u32bytes idN) p _
      simp only [ReceiveFrame.decodeFields, hcb, Command.fromByte_toByte, hft]
      simp only [hg2, hg3, u16be]
      simp [hui]
      have harg : ((4 + (p.length : Int)) / 256 * 256 +
          (4 + (p.length : Int)) % 256).toNat - FrameType.STANDARD.val = p.length := by
        simp [FrameType.val]
        omega
      rw [harg, hdata]
    ·
      have hsh : s.buffer = [43, Command.LONG_WRITE.toByte, (8 + p.length) / 256,
          (8 + p.length) % 256] ++
          (u32bytes aN ++ (u32bytes idN ++
            (p ++ u16bytes (CRC16 (frameCore .LONG_WRITE idN p aN .PLANT))))) := by
        rw [hbuf]
        simp [frameBody, frameCore, u16bytes, u32bytes, FrameType.val,
          List.cons_append, List.append_assoc]
      have hg2 : s.buffer.getD 2 0 = (8 + p.length) / 256 := by
        rw [hsh]; simp [List.getD_cons_succ, List.getD_cons_zero, List.cons_append]
      have hg3 : s.buffer.getD 3 0 = (8 + p.length) % 256 := by
        rw [hsh]; simp [List.getD_cons_succ, List.getD_cons_zero, List.cons_append]
      have hua : unpackU32 s.buffer 4 = some aN := by
        rw [hsh]
        exact unpackU32_at [43, Command.LONG_WRITE.toByte, (8 + p.length) / 256,
          (8 + p.length) % 256] aN _ (ha rfl)
      have hui : unpackU32 s.buffer 8 = some idN := by
        rw [hsh, ← List.append_assoc]
        exact unpackU32_at ([43, Command.LONG_WRITE.toByte, (8 + p.length) / 256,
          (8 + p.length) % 256] ++ u32bytes aN) idN _ hid
      have hdata : (s.buffer.drop 12).take p.length = p := by
        rw [hsh, ← List.append_assoc, ← List.append_assoc]
        exact drop_take_at (([43, Command.LONG_WRITE.toByte, (8 + p.length) / 256,
          (8 + p.length) % 256] ++ u32bytes aN) ++ u32bytes idN) p _
      simp only [ReceiveFrame.decodeFields, hcb, Command.fromByte_toByte, hft]
      simp only [hg2, hg3, u16be]
      simp [hua, hui]
      have harg : ((8 + (p.length : Int)) / 256 * 256 +
          (8 + (p.length : Int)) % 256).toNat - FrameType.PLANT.val = p.length := by
        simp [FrameType.val]
        omega
      rw [harg, hdata]
    ·
      have hsh : s.buffer = [43, Command.LONG_RESPONSE.toByte, (4 + p.length) / 256,
          (4 + p.length) % 256] ++
          (u32bytes idN ++ (p ++ u16bytes (CRC16 (frameCore .LONG_RESPONSE idN p aN .STANDARD)))) := by
        rw [hbuf]
        simp [frameBody, frameCore, u16bytes, u32bytes, FrameType.val,
          List.cons_append, List.append_assoc]
      have hg2 : s.buffer.getD 2 0 = (4 + p.length) / 256 := by
        rw [hsh]; simp [List.getD_cons_succ, List.getD_cons_zero, List.cons_append]
      have hg3 : s.buffer.getD 3 0 = (4 + p.length) % 256 := by
        rw [hsh]; simp [List.getD_cons_succ, List.getD_cons_zero, List.cons_append]
      have hui : unpackU32 s.buffer 4 = some idN := by
        rw [hsh]
        exact unpackU32_at [43, Command.LONG_RESPONSE.toByte, (4 + p.length) / 256,
          (4 + p.length) % 256] idN _ hid
      have hdata : (s.buffer.drop 8).take p.length = p := by
        rw [hsh, ← List.append_assoc]
        exact drop_take_at ([43, Command.LONG_RESPONSE.toByte, (4 + p.length) / 256,
          (4 + p.length) % 256] ++ u32bytes idN) p _
      simp only [ReceiveFrame.decodeFields, hcb, Command.fromByte_toByte, hft]
      simp only [hg2, hg3, u16be]
      simp [hui]
      have harg : ((4 + (p.length : Int)) / 256 * 256 +
          (4 + (p.length : Int)) % 256).toNat - FrameType.STANDARD.val = p.length := by
        simp [FrameType.val]
        omega
      rw [harg, hdata]
    ·
      have hsh : s.buffer = [43, Command.LONG_RESPONSE.toByte, (8 + p.length) / 256,
          (8 + p.length) % 256] ++
          (u32bytes aN ++ (u32bytes idN ++
            (p ++ u16bytes (CRC16 (frameCore .LONG_RESPONSE idN p aN .PLANT))))) := by
        rw [hbuf]
        simp [frameBody, frameCore, u16bytes, u32bytes, FrameType.val,
          List.cons_append, List.append_assoc]
      have hg2 : s.buffer.getD 2 0 = (8 + p.length) / 256 := by
        rw [hsh]; simp [List.getD_cons_succ, List.getD_cons_zero, List.cons_append]
      have hg3 : s.buffer.getD 3 0 = (8 + p.length) % 256 := by
        rw [hsh]; simp [List.getD_cons_succ, List.getD_cons_zero, List.cons_append]
      have hua : unpackU32 s.buffer 4 = some aN := by
        rw [hsh]
        exact unpackU32_at [43, Command.LONG_RESPONSE.toByte, (8 + p.length) / 256,
          (8 + p.length) % 256] aN _ (ha rfl)
      have hui : unpackU32 s.buffer 8 = some idN := by
        rw [hsh, ← List.append_assoc]
        exact unpackU32_at ([43, Command.LONG_RESPONSE.toByte, (8 + p.length) / 256,
          (8 + p.length) % 256] ++ u32bytes aN) idN _ hid
      have hdata : (s.buffer.drop 12).take p.length = p := by
        rw [hsh, ← List.append_assoc, ← List.append_assoc]
        exact drop_take_at (([43, Command.LONG_RESPONSE.toByte, (8 + p.length) / 256,
          (8 + p.length) % 256] ++ u32bytes aN) ++ u32bytes idN) p _
      simp only [ReceiveFrame.decodeFields, hcb, Command.fromByte_toByte, hft]
      simp only [hg2, hg3, u16be]
      simp [hua, hui]
      have harg : ((8 + (p.length : Int)) / 256 * 256 +
          (8 + (p.length : Int)) % 256).toNat - FrameType.PLANT.val = p.length := by
        simp [FrameType.val]
        omega
      rw [harg, hdata]
  · have hL2 : ¬(c = .LONG_RESPONSE ∨ c = .LONG_WRITE) := fun h => hL h.symm
    have hpp : (if c = .READ then ([] : List Nat) else p) = p := by
      by_cases hR : c = .READ
      · rw [if_pos hR, hREAD hR]
      · rw [if_neg hR]
    have hcb : s.buffer.getD 1 0 = c.toByte := by
      rw [hbuf]
      simp [frameBody, frameCore, List.getD_cons_succ, List.getD_cons_zero, List.cons_append]
    cases ft
    ·
      have hsh : s.buffer = [43, c.toByte, 4 + p.length] ++
          (u32bytes idN ++ (p ++ u16bytes (CRC16 (frameCore c idN p aN .STANDARD)))) := by
        rw [hbuf]
        simp [frameBody, frameCore, u16bytes, u32bytes, FrameType.val, hL, hpp,
          List.cons_append, List.append_assoc]
      have hg2 : s.buffer.getD 2 0 = 4 + p.length := by
        rw [hsh]; simp [List.getD_cons_succ, List.getD_cons_zero, List.cons_append]
      have hui : unpackU32 s.buffer 3 = some idN := by
        rw [hsh]
        exact unpackU32_at [43, c.toByte, 4 + p.length] idN _ hid
      have hdata : (s.buffer.drop 7).take p.length = p := by
        rw [hsh, ← List.append_assoc]
        exact drop_take_at ([43, c.toByte, 4 + p.length] ++ u32bytes idN) p _
      simp only [ReceiveFrame.decodeFields, hcb, Command.fromByte_toByte, hft]
      simp only [hL2, if_false, ite_false, if_neg hL2]
      simp [hui]
      have hg2b : s.buffer[2]?.getD 0 = 4 + p.length := by
        rw [← List.getD_eq_getElem?_getD]; exact hg2
      have harg : s.buffer[2]?.getD 0 - FrameType.STANDARD.val = p.length := by
        rw [hg2b]
        simp [FrameType.val]
      rw [harg, hdata]
    ·
      have hsh : s.buffer = [43, c.toByte, 8 + p.length] ++
          (u32bytes aN ++ (u32bytes idN ++ (p ++ u16bytes (CRC16 (frameCore c idN p aN .PLANT))))) := by
        rw [hbuf]
        simp [frameBody, frameCore, u16bytes, u32bytes, FrameType.val, hL, hpp,
          List.cons_append, List.append_assoc]
      have hg2 : s.buffer.getD 2 0 = 8 + p.length := by
        rw [hsh]; simp [List.getD_cons_succ, List.getD_cons_zero, List.cons_append]
      have hua : unpackU32 s.buffer 3 = some aN := by
        rw [hsh]
        exact unpackU32_at [43, c.toByte, 8 + p.length] aN _ (ha rfl)
      have hui : unpackU32 s.buffer 7 = some idN := by
        rw [hsh, ← List.append_assoc]
        exact unpackU32_at ([43, c.toByte, 8 + p.length] ++ u32bytes aN) idN _ hid
      have hdata : (s.buffer.drop 11).take p.length = p := by
        rw [hsh, ← List.append_assoc, ← List.append_assoc]
        exact drop_take_at (([43, c.toByte, 8 + p.length] ++ u32bytes aN) ++ u32bytes idN) p _
      simp only [ReceiveFrame.decodeFields, hcb, Command.fromByte_toByte, hft]
      simp only [hL2, if_false, ite_false, if_neg hL2]
      simp [hua, hui]
      have hg2b : s.buffer[2]?.getD 0 = 8 + p.length := by
        rw [← List.getD_eq_getElem?_getD]; exact hg2
      have harg : s.buffer[2]?.getD 0 - FrameType.PLANT.val = p.length := by
        rw [hg2b]
        simp [FrameType.val]
      rw [harg, hdata]

/-- The fully decoded state reached after feeding one encoder-produced
frame to a fresh `ReceiveFrame` of the matching frame type. -/
def decodedFinal (c : Command) (idN : Nat) (p : List Nat) (aN : Nat) (ft : FrameType) : ReceiveFrame :=
  { complete := true, crcOk := true, escaping := false,
    crc16 := CRC16 (frameCore c idN p aN ft),
    frameLength := flBuf (43 :: frameBody c idN p aN ft),
    frameType := ft, command := c, buffer := (43 :: frameBody c idN p aN ft),
    id := idN, data := p, address := aN }

/-- Master lemma: `make_frame` produces the start token followed by the
spec-stuffed frame body, and one `consume` call on a fresh decoder of the
same frame type consumes it entirely, completes, passes the checksum and
recovers command, id, payload and address. -/
theorem encode_consume (c : Command) (idN aN : Nat) (p : List Nat) (ft : FrameType)
    (hid : idN < 4294967296)
    (ha : ft = .PLANT → aN < 4294967296)
    (haz : ft ≠ .PLANT → aN = 0)
    (hREAD : c = .READ → p = [])
    (hlen : ft.val + p.length <
      if c = .LONG_WRITE ∨ c = .LONG_RESPONSE then 65536 else 256) :
    make_frame c (idN : Int) p (aN : Int) ft =
      some (43 :: stuffedSpec (frameBody c idN p aN ft)) ∧
    ReceiveFrame.consume (ReceiveFrame.new ft) (43 :: stuffedSpec (frameBody c idN p aN ft)) =
      ⟨decodedFinal c idN p aN ft,
       (stuffedSpec (frameBody c idN p aN ft)).length + 1, none, true⟩ := by
  have hbody := frameBuf_eq c idN aN p ft hid ha hlen
  obtain ⟨hwf1, hwf2⟩ := frameBody_wf c idN aN p ft hREAD
  constructor
  · unfold make_frame
    rw [hbody]
    show some (stuffAppend [START_TOKEN] (frameBody c idN p aN ft)) =
      some (43 :: stuffedSpec (frameBody c idN p aN ft))
    rw [stuffAppend_eq_spec]
    rfl
  · have hne : frameBody c idN p aN ft ≠ [] := by
      intro h
      rw [h] at hwf2
      simp at hwf2
    rw [consume_cons_inl _ _ _ _ (procByte_empty_start (ReceiveFrame.new ft) rfl)]
    rw [consume_stuffed (frameBody c idN p aN ft) hwf2 hwf1 (frameBody c idN p aN ft) []
      { ReceiveFrame.new ft with buffer := [43] } (by simp) hne rfl rfl
      (by intro h3; simp at h3)]
    have hsplit := decode_split
      (completedState { ReceiveFrame.new ft with buffer := [43] } (frameBody c idN p aN ft))
      (frameCore c idN p aN ft) (by rw [show frameBody c idN p aN ft =
        frameCore c idN p aN ft ++ u16bytes (CRC16 (frameCore c idN p aN ft)) from rfl]; rfl)
    rw [hsplit]
    rw [decodeFields_frameBody c idN aN p ft _ hid ha hREAD rfl rfl]
    have haddr : (if ft = .PLANT then aN else
        (({ completedState { ReceiveFrame.new ft with buffer := [43] }
            (frameBody c idN p aN ft) with
              crc16 := CRC16 (frameCore c idN p aN ft), crcOk := true } : ReceiveFrame)).address)
        = aN := by
      by_cases hP : ft = .PLANT
      · rw [if_pos hP]
      · rw [if_neg hP]
        rw [haz hP]
        rfl
    rw [haddr]
    rfl

theorem decodeFields_pres (s : ReceiveFrame) :
    (ReceiveFrame.decodeFields s).1.complete = s.complete ∧
    (ReceiveFrame.decodeFields s).1.crcOk = s.crcOk := by
  simp only [ReceiveFrame.decodeFields]
  refine ⟨?_, ?_⟩ <;>
    (split
     · rfl
     · split
       all_goals first
         | rfl
         | (split <;> first | rfl | (split <;> rfl)))

theorem decode_pres (s : ReceiveFrame) :
    (ReceiveFrame.decode s).1.complete = s.complete ∧
    ((ReceiveFrame.decode s).1.crcOk = false →
      (ReceiveFrame.decode s).1.command = s.command ∧ (ReceiveFrame.decode s).1.id = s.id ∧
      (ReceiveFrame.decode s).1.data = s.data ∧
      (ReceiveFrame.decode s).1.address = s.address ∧ s.crcOk = false) := by
  simp only [ReceiveFrame.decode]
  split
  · constructor
    · exact (decodeFields_pres _).1
    · intro hf
      exfalso
      rw [(decodeFields_pres _).2] at hf
      simp at hf
  · exact ⟨rfl, fun hf => ⟨rfl, rfl, rfl, rfl, hf⟩⟩

/-- The decoder's output-field invariant: while no frame has passed the
checksum, the command is still the sentinel and id, payload and address
still hold their zero/empty construction-time values. -/
def RFInv (s : ReceiveFrame) : Prop :=
  s.crcOk = false → s.command = Command.NONE ∧ s.id = 0 ∧ s.data = [] ∧ s.address = 0

theorem decode_inv (s : ReceiveFrame) (h : RFInv s) : RFInv (ReceiveFrame.decode s).1 := by
  intro hf
  obtain ⟨h1, h2, h3, h4, h5⟩ := (decode_pres s).2 hf
  obtain ⟨i1, i2, i3, i4⟩ := h h5
  exact ⟨h1.trans i1, h2.trans i2, h3.trans i3, h4.trans i4⟩

theorem addByte_inv (s : ReceiveFrame) (d : Nat) (h : RFInv s) : RFInv (s.addByte d).1 := by
  simp only [ReceiveFrame.addByte]
  split
  · split
    · exact fun hf => h hf
    · split
      · exact decode_inv { s with buffer := s.buffer ++ [d], complete := true }
          (fun hf => h hf)
      · exact fun hf => h hf
  · exact fun hf => h hf

theorem procByte_inv (s : ReceiveFrame) (d : Nat) (h : RFInv s) (s1 : ReceiveFrame)
    (hcase : s.procByte d = .inl s1 ∨ ∃ e, s.procByte d = .inr (s1, e)) : RFInv s1 := by
  have hA : RFInv (ReceiveFrame.addByte { s with escaping := false } d).1 :=
    addByte_inv _ d (fun hf => h hf)
  have hB : RFInv (ReceiveFrame.addByte s d).1 := addByte_inv s d h
  rcases hcase with hc | ⟨e, hc⟩ <;> simp only [ReceiveFrame.procByte] at hc
  · split at hc
    · split at hc <;> (injection hc with h2; subst h2)
      · exact fun hf => h hf
      · exact fun hf => h hf
    · split at hc
      · split at hc
        · exact absurd hc (by simp)
        · injection hc with h2
          subst h2
          exact hA
      · split at hc
        · injection hc with h2
          subst h2
          exact fun hf => h hf
        · split at hc
          · exact absurd hc (by simp)
          · injection hc with h2
            subst h2
            exact hB
  · split at hc
    · split at hc <;> exact absurd hc (by simp)
    · split at hc
      · split at hc
        · injection hc with h2
          rw [Prod.mk.injEq] at h2
          rw [← h2.1]
          exact hA
        · exact absurd hc (by simp)
      · split at hc
        · exact absurd hc (by simp)
        · split at hc
          · injection hc with h2
            rw [Prod.mk.injEq] at h2
            rw [← h2.1]
            exact hB
          · exact absurd hc (by simp)

theorem consume_inv : ∀ (data : List Nat) (s : ReceiveFrame),
    RFInv s → RFInv (s.consume data).state := by
  intro data
  induction data with
  | nil => intro s h; exact h
  | cons d rest ih =>
    intro s h
    cases hpb : s.procByte d with
    | inl s1 =>
      rw [consume_cons_inl _ _ _ _ hpb]
      exact ih s1 (procByte_inv s d h s1 (Or.inl hpb))
    | inr pe =>
      obtain ⟨s1, e⟩ := pe
      rw [consume_cons_inr _ _ _ _ _ hpb]
      exact procByte_inv s d h s1 (Or.inr ⟨e, hpb⟩)

theorem feedChunks_inv : ∀ (chunks : List (List Nat)) (s : ReceiveFrame),
    RFInv s → RFInv (feedChunks s chunks).state := by
  intro chunks
  induction chunks with
  | nil => intro s h; exact h
  | cons c cs ih =>
    intro s h
    exact ih _ (consume_inv c s h)

theorem addByte_stop_complete (s : ReceiveFrame) (d : Nat) (s1 : ReceiveFrame)
    (rest : Bool × Option DecodeError) (hab : s.addByte d = (s1, rest))
    (hstop : rest.1 = true) : s1.complete = true := by
  simp only [ReceiveFrame.addByte] at hab
  split at hab
  · split at hab
    · rw [Prod.mk.injEq] at hab
      rw [← hab.2] at hstop
      simp at hstop
    · split at hab
      · rw [Prod.mk.injEq] at hab
        rw [← hab.1]
        exact (decode_pres _).1
      · rw [Prod.mk.injEq] at hab
        rw [← hab.2] at hstop
        simp at hstop
  · rw [Prod.mk.injEq] at hab
    rw [← hab.2] at hstop
    simp at hstop

theorem procByte_stop_complete (s : ReceiveFrame) (d : Nat) (s1 : ReceiveFrame)
    (e : Option DecodeError) (h : s.procByte d = .inr (s1, e)) : s1.complete = true := by
  simp only [ReceiveFrame.procByte] at h
  split at h
  · split at h <;> exact absurd h (by simp)
  · split at h
    · split at h
      case isTrue hc =>
        injection h with h2
        rw [Prod.mk.injEq] at h2
        rw [← h2.1]
        exact addByte_stop_complete _ _ _ _ rfl hc
      case isFalse => exact absurd h (by simp)
    · split at h
      · exact absurd h (by simp)
      · split at h
        case isTrue hc =>
          injection h with h2
          rw [Prod.mk.injEq] at h2
          rw [← h2.1]
          exact addByte_stop_complete _ _ _ _ rfl hc
        case isFalse => exact absurd h (by simp)

theorem consume_not_stopped : ∀ (data : List Nat) (s : ReceiveFrame),
    (s.consume data).stopped = false →
    (s.consume data).consumed = data.length ∧ (s.consume data).error = none := by
  intro data
  induction data with
  | nil => intro s _; exact ⟨rfl, rfl⟩
  | cons d rest ih =>
    intro s h
    cases hpb : s.procByte d with
    | inl s1 =>
      rw [consume_cons_inl _ _ _ _ hpb] at h ⊢
      dsimp only at h ⊢
      obtain ⟨ih1, ih2⟩ := ih s1 h
      rw [ih1, ih2]
      simp
    | inr pe =>
      obtain ⟨s1, e⟩ := pe
      rw [consume_cons_inr _ _ _ _ _ hpb] at h
      simp at h

theorem consume_stopped_facts : ∀ (data : List Nat) (s : ReceiveFrame),
    (s.consume data).stopped = true →
      1 ≤ (s.consume data).consumed ∧ (s.consume data).consumed ≤ data.length ∧
      (s.consume data).state.complete = true ∧
      s.consume (data.take (s.consume data).consumed) = s.consume data := by
  intro data
  induction data with
  | nil => intro s h; rw [consume_nil] at h; simp at h
  | cons d rest ih =>
    intro s h
    cases hpb : s.procByte d with
    | inl s1 =>
      rw [consume_cons_inl _ _ _ _ hpb] at h ⊢
      dsimp only at h ⊢
      obtain ⟨ih1, ih2, ih3, ih4⟩ := ih s1 h
      refine ⟨by omega, by simp only [List.length_cons]; omega, ih3, ?_⟩
      rw [List.take_succ_cons]
      rw [consume_cons_inl _ _ _ _ hpb]
      rw [ih4]
    | inr pe =>
      obtain ⟨s1, e⟩ := pe
      rw [consume_cons_inr _ _ _ _ _ hpb]
      dsimp only
      refine ⟨le_refl 1, by simp, procByte_stop_complete s d s1 e hpb, ?_⟩
      rw [show List.take 1 (d :: rest) = [d] from by simp]
      rw [consume_cons_inr _ _ _ _ _ hpb]

theorem consume_append_not_stopped : ∀ (xs : List Nat) (s : ReceiveFrame) (ys : List Nat),
    (s.consume xs).stopped = false →
    s.consume (xs ++ ys) =
      ⟨((s.consume xs).state.consume ys).state,
       xs.length + ((s.consume xs).state.consume ys).consumed,
       ((s.consume xs).state.consume ys).error,
       ((s.consume xs).state.consume ys).stopped⟩ := by
  intro xs
  induction xs with
  | nil =>
    intro s ys _
    simp only [List.nil_append, consume_nil, List.length_nil, Nat.zero_add]
  | cons d xs ih =>
    intro s ys h
    cases hpb : s.procByte d with
    | inl s1 =>
      rw [consume_cons_inl _ _ _ _ hpb] at h
      dsimp only at h
      rw [List.cons_append]
      rw [consume_cons_inl _ _ _ _ hpb]
      rw [ih s1 ys h]
      rw [consume_cons_inl _ _ _ _ hpb]
      dsimp only
      simp only [ConsumeResult.mk.injEq, List.length_cons, true_and, and_true]
      omega
    | inr pe =>
      obtain ⟨s1, e⟩ := pe
      rw [consume_cons_inr _ _ _ _ _ hpb] at h
      simp at h

theorem consume_append_stopped : ∀ (xs : List Nat) (s : ReceiveFrame) (ys : List Nat),
    (s.consume xs).stopped = true →
    s.consume (xs ++ ys) = s.consume xs := by
  intro xs
  induction xs with
  | nil => intro s ys h; rw [consume_nil] at h; simp at h
  | cons d xs ih =>
    intro s ys h
    cases hpb : s.procByte d with
    | inl s1 =>
      rw [consume_cons_inl _ _ _ _ hpb] at h ⊢
      dsimp only at h
      rw [List.cons_append, consume_cons_inl _ _ _ _ hpb, ih s1 ys h]
    | inr pe =>
      obtain ⟨s1, e⟩ := pe
      rw [List.cons_append, consume_cons_inr _ _ _ _ _ hpb, consume_cons_inr _ _ _ _ _ hpb]

theorem consume_noise : ∀ (noise : List Nat) (s : ReceiveFrame) (data : List Nat),
    s.buffer = [] → (∀ b, b ∈ noise → b ≠ 43) →
    s.consume (noise ++ data) =
      ⟨(s.consume data).state, noise.length + (s.consume data).consumed,
       (s.consume data).error, (s.consume data).stopped⟩ := by
  intro noise
  induction noise with
  | nil =>
    intro s data _ _
    simp only [List.nil_append, List.length_nil, Nat.zero_add]
  | cons b noise ih =>
    intro s data hb hnb
    rw [List.cons_append]
    rw [consume_cons_inl _ _ _ _ (procByte_empty_skip s b hb (hnb b (by simp)))]
    rw [ih s data hb (fun x hx => hnb x (by simp [hx]))]
    dsimp only
    simp only [ConsumeResult.mk.injEq, List.length_cons, true_and, and_true]
    omega

theorem feedChunks_all_empty : ∀ (cs : List (List Nat)) (s : ReceiveFrame),
    (∀ c ∈ cs, c = []) → feedChunks s cs = ⟨s, 0, none, false⟩ := by
  intro cs
  induction cs with
  | nil => intro s _; rfl
  | cons c cs ih =>
    intro s h
    have hc : c = [] := h c (by simp)
    subst hc
    simp only [feedChunks, consume_nil]
    rw [ih s (fun x hx => h x (by simp [hx]))]
    simp

theorem feedChunks_eq_consume : ∀ (chunks : List (List Nat)) (s : ReceiveFrame),
    (s.consume chunks.flatten).stopped = true →
    (s.consume chunks.flatten).consumed = chunks.flatten.length →
    feedChunks s chunks = s.consume chunks.flatten := by
  intro chunks
  induction chunks with
  | nil =>
    intro s h _
    rw [show (([] : List (List Nat)).flatten) = [] from rfl, consume_nil] at h
    simp at h
  | cons c cs ih =>
    intro s hstop hcons
    have hjoin : (c :: cs).flatten = c ++ cs.flatten := by simp
    rw [hjoin] at hstop hcons ⊢
    by_cases h1 : (s.consume c).stopped = true
    · rw [consume_append_stopped c s cs.flatten h1] at hstop hcons ⊢
      obtain ⟨_, hle, _, _⟩ := consume_stopped_facts c s h1
      have hjlen : cs.flatten = [] := by
        rw [List.length_append] at hcons
        have : cs.flatten.length = 0 := by omega
        exact List.length_eq_zero.mp this
      have hempty : ∀ x ∈ cs, x = [] := by
        intro x hx
        exact List.flatten_eq_nil_iff.mp hjlen x hx
      simp only [feedChunks]
      rw [feedChunks_all_empty cs _ hempty]
      rcases hE : (s.consume c).error with _ | e <;>
        (conv_rhs => rw [show s.consume c = ⟨(s.consume c).state, (s.consume c).consumed,
           (s.consume c).error, (s.consume c).stopped⟩ from rfl]) <;>
        simp [hE, h1]
    · have hns : (s.consume c).stopped = false := by simpa using h1
      rw [consume_append_not_stopped c s cs.flatten hns] at hstop hcons ⊢
      dsimp only at hstop hcons
      obtain ⟨hc1, hc2⟩ := consume_not_stopped c s hns
      have hcons2 : ((s.consume c).state.consume cs.flatten).consumed = cs.flatten.length := by
        rw [List.length_append] at hcons
        omega
      have hrec := ih (s.consume c).state hstop hcons2
      simp only [feedChunks]
      rw [hrec, hc1, hc2]
      simp [hstop]

/-! ## Claim theorems -/

/-- C5: every byte sequence produced by the encoder starts with a single
start token, which is itself never escaped (and, by construction of
`frameBuf`, never checksummed), and the remainder is exactly the
pre-stuffing buffer-plus-checksum emitted byte for byte, where each byte
whose value is the start or escape token is immediately preceded by one
escape token and then emitted unmodified (`escByteSpec`/`stuffedSpec`
transcribe that sentence of the spec literally). -/
theorem make_frame_stuffing (c : Command) (id : Int) (p : List Nat) (a : Int)
    (ft : FrameType) :
    make_frame c id p a ft =
      (frameBuf c id p a ft).map (fun buf => START_TOKEN :: stuffedSpec buf) := by
  unfold make_frame
  cases h : frameBuf c id p a ft
  · rfl
  · show some (stuffAppend [START_TOKEN] _) = _
    rw [stuffAppend_eq_spec]
    rfl

/-- The round-trip property of one frame: encoding succeeds and feeding
the encoded bytes to a fresh `ReceiveFrame` of the same frame type
consumes them all, reports no error, completes with a matching checksum,
and reproduces command, id, payload and address. -/
def roundTrips (c : Command) (id : Nat) (payload : List Nat) (address : Nat)
    (ft : FrameType) : Prop :=
  match make_frame c (id : Int) payload (address : Int) ft with
  | none => False
  | some w =>
    (ReceiveFrame.consume (ReceiveFrame.new ft) w).consumed = w.length ∧
    (ReceiveFrame.consume (ReceiveFrame.new ft) w).error = none ∧
    (ReceiveFrame.consume (ReceiveFrame.new ft) w).stopped = true ∧
    (ReceiveFrame.consume (ReceiveFrame.new ft) w).state.complete = true ∧
    (ReceiveFrame.consume (ReceiveFrame.new ft) w).state.crcOk = true ∧
    (ReceiveFrame.consume (ReceiveFrame.new ft) w).state.command = c ∧
    (ReceiveFrame.consume (ReceiveFrame.new ft) w).state.id = id ∧
    (ReceiveFrame.consume (ReceiveFrame.new ft) w).state.data = payload ∧
    (ReceiveFrame.consume (ReceiveFrame.new ft) w).state.address = address

/-- C1: for every command, 32-bit id, address and payload consistent with
the §3 invariants (payload empty for read-requests, address 0 unless
plant) whose length fits the applicable length-field width, the bytes of
`make_frame` fed to a fresh `ReceiveFrame` of the same frame type
complete with a valid checksum and reproduce command, id, effective
payload and effective address. -/
theorem make_frame_consume_roundTrip (c : Command) (id : Nat) (payload : List Nat)
    (address : Nat) (ft : FrameType)
    (hid : id < 4294967296)
    (haddr : ft = .PLANT → address < 4294967296)
    (haz : ft ≠ .PLANT → address = 0)
    (hread : c = .READ → payload = [])
    (hlen : ft.val + payload.length <
      if c = .LONG_WRITE ∨ c = .LONG_RESPONSE then 65536 else 256) :
    roundTrips c id payload address ft := by
  obtain ⟨h1, h2⟩ := encode_consume c id address payload ft hid haddr haz hread hlen
  unfold roundTrips
  rw [h1]
  dsimp only
  rw [h2]
  simp [decodedFinal]

set_option maxRecDepth 8000 in
/-- Witness for C1 at a concrete input. -/
theorem make_frame_consume_roundTrip_witness :
    roundTrips .WRITE 16 [170, 187] 0 .STANDARD :=
  make_frame_consume_roundTrip .WRITE 16 [170, 187] 0 .STANDARD (by decide) (by decide)
    (by decide) (by decide) (by decide)

set_option maxRecDepth 8000 in
/-- C2 (code bug): `SendFrame` empties the payload before encoding, so its
read-request frames decode with an empty payload; but `make_frame` itself
computes the length field from the *raw* payload while omitting the
payload bytes for `READ`, so `make_frame(READ, 1, b'\xaa')` emits a
9-byte frame whose declared length field is 5 (= 4 + 1) and which a fresh
`ReceiveFrame` never completes (it still waits for the phantom payload
byte after the whole frame was consumed). -/
theorem read_request_payload_leak :
    (SendFrame.make .READ 1 [170] 0 .STANDARD).payload = [] ∧
    (SendFrame.make .READ 1 [170] 0 .STANDARD).data = make_frame .READ 1 [] 0 .STANDARD ∧
    declaredLen .READ ((frameBuf .READ 1 [170] 0 .STANDARD).getD []) = 5 ∧
    ((frameBuf .READ 1 [170] 0 .STANDARD).getD []).length = 8 ∧
    (ReceiveFrame.consume (ReceiveFrame.new .STANDARD)
      ((make_frame .READ 1 [170] 0 .STANDARD).getD [])).state.complete = false ∧
    (ReceiveFrame.consume (ReceiveFrame.new .STANDARD)
      ((make_frame .READ 1 [170] 0 .STANDARD).getD [])).stopped = false ∧
    (ReceiveFrame.consume (ReceiveFrame.new .STANDARD)
      ((make_frame .READ 1 [170] 0 .STANDARD).getD [])).consumed
        = ((make_frame .READ 1 [170] 0 .STANDARD).getD []).length ∧
    (ReceiveFrame.consume (ReceiveFrame.new .STANDARD)
      ((make_frame .READ 1 [] 0 .STANDARD).getD [])).state.complete = true ∧
    (ReceiveFrame.consume (ReceiveFrame.new .STANDARD)
      ((make_frame .READ 1 [] 0 .STANDARD).getD [])).state.crcOk = true ∧
    (ReceiveFrame.consume (ReceiveFrame.new .STANDARD)
      ((make_frame .READ 1 [] 0 .STANDARD).getD [])).state.data = [] ∧
    (ReceiveFrame.consume (ReceiveFrame.new .STANDARD)
      ((make_frame .READ 1 [] 0 .STANDARD).getD [])).state.id = 1 := by
  decide

set_option maxRecDepth 8000 in
/-- C3 counterexample: for the encoder input (WRITE, id 0, empty payload,
address 0, plant) the emitted length field is 8 (= frame-type value +
payload length as the code computes it), not frame-type value + 4
(address) + 4 (id) + payload length = 16 as the claim states: the
frame-type numeric value already stands for the address/id byte count and
is not added on top of it. -/
theorem declared_length_claim_counterexample :
    (frameBuf .WRITE 0 [] 0 .PLANT).isSome = true ∧
    declaredLen .WRITE ((frameBuf .WRITE 0 [] 0 .PLANT).getD []) = 8 ∧
    ¬(declaredLen .WRITE ((frameBuf .WRITE 0 [] 0 .PLANT).getD []) =
        FrameType.PLANT.val + 4 + 4 + ([] : List Nat).length) := by
  decide

/-- C3 (amended): for every encoder input whose packs succeed, the
declared wire length field equals the frame-type numeric value plus the
payload byte length; and since the frame-type value is 4 for standard and
8 for plant, that sum equals (4 address bytes if plant, else 0) + 4 (id)
+ payload bytes — the spec's decomposition holds with the frame-type
numeric value read as 0-for-standard, not added on top of its own byte
count. -/
theorem declaredLen_frameBuf (c : Command) (id : Nat) (p : List Nat) (a : Nat)
    (ft : FrameType)
    (hid : id < 4294967296) (ha : ft = .PLANT → a < 4294967296)
    (hlen : ft.val + p.length <
      if c = .LONG_WRITE ∨ c = .LONG_RESPONSE then 65536 else 256) :
    declaredLen c ((frameBuf c (id : Int) p (a : Int) ft).getD []) = ft.val + p.length ∧
    ft.val = (if ft = .PLANT then 4 else 0) + 4 := by
  rw [frameBuf_eq c id a p ft hid ha hlen]
  constructor
  · by_cases hL : c = .LONG_WRITE ∨ c = .LONG_RESPONSE
    · rw [show ((some (frameBody c id p a ft)).getD [] : List Nat) = frameBody c id p a ft
        from rfl]
      rw [declaredLen, if_pos hL]
      simp [frameBody, frameCore, u16bytes, hL, List.getD_cons_succ, List.getD_cons_zero,
        List.cons_append, u16be]
      omega
    · rw [show ((some (frameBody c id p a ft)).getD [] : List Nat) = frameBody c id p a ft
        from rfl]
      rw [declaredLen, if_neg hL]
      simp [frameBody, frameCore, hL, List.getD_cons_succ, List.getD_cons_zero,
        List.cons_append]
  · cases ft <;> rfl

/-- Witness for the amended C3 at a concrete input. -/
theorem declaredLen_frameBuf_witness :
    declaredLen .WRITE
        ((frameBuf .WRITE (((16 : Nat) : Int)) [170, 187] (((0 : Nat) : Int)) .STANDARD).getD [])
      = FrameType.STANDARD.val + ([170, 187] : List Nat).length ∧
    FrameType.STANDARD.val = (if (FrameType.STANDARD : FrameType) = .PLANT then 4 else 0) + 4 :=
  declaredLen_frameBuf .WRITE 16 [170, 187] 0 .STANDARD (by decide) (by decide) (by decide)

/-- C4 counterexample: an id one past the unsigned 32-bit range makes
`struct.pack('>I', id)` raise (`none` here): the input is rejected, not
truncated, and encoding does fail. -/
theorem make_frame_out_of_range_counterexample :
    make_frame .READ 4294967296 [] 0 .STANDARD = none := by
  decide

theorem frameBuf_addr_of_not_plant (c : Command) (id : Int) (p : List Nat) (a : Int)
    (ft : FrameType) (hP : ¬ft = .PLANT) :
    frameBuf c id p a ft = frameBuf c id p 0 ft := by
  unfold frameBuf
  simp only [if_neg hP]

/-- C4 (amended): `make_frame` succeeds exactly when the inputs fit the
wire format: id (and, for plant frames, address) in `[0, 2^32)` and the
length field value within its 1- or 2-byte width; outside those ranges
`struct.pack` raises (`none` here) instead of truncating, and no other
validation is performed (in particular the address is unconstrained for
non-plant frames and payloads are never inspected). -/
theorem make_frame_isSome_iff (c : Command) (id : Int) (p : List Nat) (a : Int)
    (ft : FrameType) :
    (make_frame c id p a ft).isSome = true ↔
      ((0 ≤ id ∧ id < 4294967296) ∧ (ft = .PLANT → 0 ≤ a ∧ a < 4294967296) ∧
       ft.val + p.length < (if c = .LONG_WRITE ∨ c = .LONG_RESPONSE then 65536 else 256)) := by
  have hiso : (make_frame c id p a ft).isSome = (frameBuf c id p a ft).isSome := by
    unfold make_frame
    cases frameBuf c id p a ft <;> rfl
  rw [hiso]
  constructor
  · intro h
    unfold frameBuf at h
    rcases hX : (if c = .LONG_WRITE ∨ c = .LONG_RESPONSE then
        packU16 (ft.val + p.length) else packU8 (ft.val + p.length)) with _ | lenB
    · rw [hX] at h
      simp at h
    · rw [hX] at h
      simp only [Option.bind] at h
      rcases hY : (if ft = .PLANT then packU32 a else some ([] : List Nat)) with _ | addrB
      · rw [hY] at h
        simp at h
      · rw [hY] at h
        simp only [Option.bind] at h
        rcases hZ : packU32 id with _ | idB
        · rw [hZ] at h
          simp at h
        · refine ⟨?_, ?_, ?_⟩
          · unfold packU32 at hZ
            split at hZ
            · assumption
            · exact absurd hZ (by simp)
          · intro hP
            rw [if_pos hP] at hY
            unfold packU32 at hY
            split at hY
            · assumption
            · exact absurd hY (by simp)
          · by_cases hL : c = .LONG_WRITE ∨ c = .LONG_RESPONSE
            · rw [if_pos hL] at hX ⊢
              unfold packU16 at hX
              split at hX
              · assumption
              · exact absurd hX (by simp)
            · rw [if_neg hL] at hX ⊢
              unfold packU8 at hX
              split at hX
              · assumption
              · exact absurd hX (by simp)
  · rintro ⟨⟨h0, h1⟩, h2, h3⟩
    have hids : id = ((id.toNat : Nat) : Int) := (Int.toNat_of_nonneg h0).symm
    by_cases hP : ft = .PLANT
    · obtain ⟨a0, a1⟩ := h2 hP
      have has : a = ((a.toNat : Nat) : Int) := (Int.toNat_of_nonneg a0).symm
      rw [hids, has]
      rw [frameBuf_eq c id.toNat a.toNat p ft (by omega) (fun _ => by omega) h3]
      rfl
    · rw [frameBuf_addr_of_not_plant c id p a ft hP]
      rw [hids, show (0 : Int) = (((0 : Nat) : Nat) : Int) from rfl]
      rw [frameBuf_eq c id.toNat 0 p ft (by omega) (fun hp => absurd hp hP) h3]
      rfl

/-- Witness for the amended C4: an in-range input (with a nonzero address
on a standard frame, which is not range-checked) encodes successfully. -/
theorem make_frame_isSome_iff_witness :
    (make_frame .WRITE 7 [1] 5 .STANDARD).isSome = true :=
  (make_frame_isSome_iff .WRITE 7 [1] 5 .STANDARD).mpr (by decide)

/-- C6: splitting one encoded frame's bytes into any partition of
consecutive sub-chunks and feeding them in order to repeated `consume`
calls on one fresh `ReceiveFrame` gives the same terminal state, error
and total consumed-byte count as one `consume` call on the whole
buffer. -/
theorem consume_chunking_invariance (c : Command) (id : Nat) (payload : List Nat)
    (address : Nat) (ft : FrameType) (w : List Nat) (chunks : List (List Nat))
    (hid : id < 4294967296)
    (haddr : ft = .PLANT → address < 4294967296)
    (haz : ft ≠ .PLANT → address = 0)
    (hread : c = .READ → payload = [])
    (hlen : ft.val + payload.length <
      if c = .LONG_WRITE ∨ c = .LONG_RESPONSE then 65536 else 256)
    (hw : make_frame c (id : Int) payload (address : Int) ft = some w)
    (hchunks : chunks.flatten = w) :
    feedChunks (ReceiveFrame.new ft) chunks = ReceiveFrame.consume (ReceiveFrame.new ft) w := by
  obtain ⟨h1, h2⟩ := encode_consume c id address payload ft hid haddr haz hread hlen
  rw [hw] at h1
  injection h1 with h1
  subst h1
  rw [← hchunks]
  apply feedChunks_eq_consume
  · rw [hchunks, h2]
  · rw [hchunks, h2]
    simp

set_option maxRecDepth 8000 in
/-- Witness for C6: a concrete frame fed one byte at a time. -/
theorem consume_chunking_invariance_witness :
    feedChunks (ReceiveFrame.new .STANDARD)
        [[43], [2], [6], [0], [0], [0], [16], [170], [187], [184], [219]] =
      ReceiveFrame.consume (ReceiveFrame.new .STANDARD)
        [43, 2, 6, 0, 0, 0, 16, 170, 187, 184, 219] :=
  consume_chunking_invariance .WRITE 16 [170, 187] 0 .STANDARD
    [43, 2, 6, 0, 0, 0, 16, 170, 187, 184, 219]
    [[43], [2], [6], [0], [0], [0], [16], [170], [187], [184], [219]]
    (by decide) (by decide) (by decide) (by decide) (by decide) (by decide) (by decide)

/-- C7: every `consume` call returns the number of bytes it actually
consumed: with no completion it consumes the whole chunk (and raises
nothing); bytes before the first start token are silently skipped but
still counted and never reported as an error; and when a frame completes
partway the returned count is exactly the bytes up to and including the
completing byte — the result is already determined by that prefix, the
rest of the chunk being left unconsumed. -/
theorem consume_byte_accounting :
    (∀ (s : ReceiveFrame) (data : List Nat), (s.consume data).stopped = false →
       (s.consume data).consumed = data.length ∧ (s.consume data).error = none) ∧
    (∀ (ft : FrameType) (noise data : List Nat), (∀ b ∈ noise, b ≠ 43) →
       ReceiveFrame.consume (ReceiveFrame.new ft) (noise ++ data) =
         ⟨(ReceiveFrame.consume (ReceiveFrame.new ft) data).state,
          noise.length + (ReceiveFrame.consume (ReceiveFrame.new ft) data).consumed,
          (ReceiveFrame.consume (ReceiveFrame.new ft) data).error,
          (ReceiveFrame.consume (ReceiveFrame.new ft) data).stopped⟩) ∧
    (∀ (s : ReceiveFrame) (data : List Nat), (s.consume data).stopped = true →
       1 ≤ (s.consume data).consumed ∧ (s.consume data).consumed ≤ data.length ∧
       (s.consume data).state.complete = true ∧
       s.consume (data.take (s.consume data).consumed) = s.consume data) :=
  ⟨fun s data h => consume_not_stopped data s h,
   fun ft noise data h => consume_noise noise (ReceiveFrame.new ft) data rfl h,
   fun s data h => consume_stopped_facts data s h⟩

set_option maxRecDepth 8000 in
/-- Witness for C7: no-completion count, noise skipping, and an
early-completing chunk with trailing bytes left unconsumed. -/
theorem consume_byte_accounting_witness :
    ((ReceiveFrame.consume (ReceiveFrame.new .STANDARD) [9, 9, 9]).consumed = 3 ∧
     (ReceiveFrame.consume (ReceiveFrame.new .STANDARD) [9, 9, 9]).error = none) ∧
    ReceiveFrame.consume (ReceiveFrame.new .STANDARD) ([9, 9] ++ [43, 2]) =
      ⟨(ReceiveFrame.consume (ReceiveFrame.new .STANDARD) [43, 2]).state,
       ([9, 9] : List Nat).length +
         (ReceiveFrame.consume (ReceiveFrame.new .STANDARD) [43, 2]).consumed,
       (ReceiveFrame.consume (ReceiveFrame.new .STANDARD) [43, 2]).error,
       (ReceiveFrame.consume (ReceiveFrame.new .STANDARD) [43, 2]).stopped⟩ ∧
    (1 ≤ (ReceiveFrame.consume (ReceiveFrame.new .STANDARD)
            [43, 2, 4, 0, 0, 0, 0, 0, 0, 7, 7]).consumed ∧
     (ReceiveFrame.consume (ReceiveFrame.new .STANDARD)
        [43, 2, 4, 0, 0, 0, 0, 0, 0, 7, 7]).consumed ≤
          ([43, 2, 4, 0, 0, 0, 0, 0, 0, 7, 7] : List Nat).length ∧
     (ReceiveFrame.consume (ReceiveFrame.new .STANDARD)
        [43, 2, 4, 0, 0, 0, 0, 0, 0, 7, 7]).state.complete = true ∧
     ReceiveFrame.consume (ReceiveFrame.new .STANDARD)
        (List.take (ReceiveFrame.consume (ReceiveFrame.new .STANDARD)
          [43, 2, 4, 0, 0, 0, 0, 0, 0, 7, 7]).consumed [43, 2, 4, 0, 0, 0, 0, 0, 0, 7, 7]) =
       ReceiveFrame.consume (ReceiveFrame.new .STANDARD) [43, 2, 4, 0, 0, 0, 0, 0, 0, 7, 7]) :=
  ⟨consume_byte_accounting.1 (ReceiveFrame.new .STANDARD) [9, 9, 9] (by decide),
   consume_byte_accounting.2.1 .STANDARD [9, 9] [43, 2] (by decide),
   consume_byte_accounting.2.2 (ReceiveFrame.new .STANDARD)
     [43, 2, 4, 0, 0, 0, 0, 0, 0, 7, 7] (by decide)⟩

/-- C8: a structurally complete frame (one whose header-declared size
matches its byte count) whose trailing two received checksum bytes differ
from the checksum computed over the de-stuffed buffer without the start
token and the checksum bytes ends in the checksum-failed terminal state:
the error carries the received value, the computed value and (in the
result record, where Python attaches it to the raised exception) the
bytes consumed; `complete()` stays true while `is_complete()` is
false. -/
theorem checksum_mismatch_error (ft : FrameType) (mid : List Nat) (x y : Nat)
    (h4 : 4 ≤ (mid ++ [x, y]).length)
    (hfl : flBuf (43 :: (mid ++ [x, y])) + 1 = (mid ++ [x, y]).length)
    (hne : u16be x y ≠ CRC16 mid) :
    (ReceiveFrame.consume (ReceiveFrame.new ft) (43 :: stuffedSpec (mid ++ [x, y]))).error =
      some (DecodeError.crcMismatch (u16be x y) (CRC16 mid)) ∧
    (ReceiveFrame.consume (ReceiveFrame.new ft) (43 :: stuffedSpec (mid ++ [x, y]))).consumed =
      (43 :: stuffedSpec (mid ++ [x, y])).length ∧
    (ReceiveFrame.consume (ReceiveFrame.new ft) (43 :: stuffedSpec (mid ++ [x, y]))).stopped
      = true ∧
    (ReceiveFrame.consume (ReceiveFrame.new ft)
      (43 :: stuffedSpec (mid ++ [x, y]))).state.crc16 = u16be x y ∧
    (ReceiveFrame.consume (ReceiveFrame.new ft)
      (43 :: stuffedSpec (mid ++ [x, y]))).state.crcOk = false ∧
    ReceiveFrame.completeQ
      (ReceiveFrame.consume (ReceiveFrame.new ft)
        (43 :: stuffedSpec (mid ++ [x, y]))).state = true ∧
    ReceiveFrame.is_complete
      (ReceiveFrame.consume (ReceiveFrame.new ft)
        (43 :: stuffedSpec (mid ++ [x, y]))).state = false := by
  have hne2 : mid ++ [x, y] ≠ [] := by
    intro h
    rw [h] at h4
    simp at h4
  rw [consume_cons_inl _ _ _ _ (procByte_empty_start (ReceiveFrame.new ft) rfl)]
  rw [consume_stuffed (mid ++ [x, y]) h4 hfl (mid ++ [x, y]) []
    { ReceiveFrame.new ft with buffer := [43] } (by simp) hne2 rfl rfl
    (by intro h3; simp at h3)]
  rw [decode_mismatch _ mid x y rfl hne]
  refine ⟨rfl, by simp, rfl, rfl, rfl, rfl, rfl⟩

set_option maxRecDepth 8000 in
/-- Witness for C8: a well-sized WRITE frame whose checksum bytes are
zeroed. -/
theorem checksum_mismatch_error_witness :
    (ReceiveFrame.consume (ReceiveFrame.new .STANDARD)
        (43 :: stuffedSpec ([2, 4, 0, 0, 0, 0] ++ [0, 0]))).error =
      some (DecodeError.crcMismatch (u16be 0 0) (CRC16 [2, 4, 0, 0, 0, 0])) ∧
    (ReceiveFrame.consume (ReceiveFrame.new .STANDARD)
        (43 :: stuffedSpec ([2, 4, 0, 0, 0, 0] ++ [0, 0]))).consumed =
      (43 :: stuffedSpec ([2, 4, 0, 0, 0, 0] ++ [0, 0])).length ∧
    (ReceiveFrame.consume (ReceiveFrame.new .STANDARD)
        (43 :: stuffedSpec ([2, 4, 0, 0, 0, 0] ++ [0, 0]))).stopped = true ∧
    (ReceiveFrame.consume (ReceiveFrame.new .STANDARD)
        (43 :: stuffedSpec ([2, 4, 0, 0, 0, 0] ++ [0, 0]))).state.crc16 = u16be 0 0 ∧
    (ReceiveFrame.consume (ReceiveFrame.new .STANDARD)
        (43 :: stuffedSpec ([2, 4, 0, 0, 0, 0] ++ [0, 0]))).state.crcOk = false ∧
    ReceiveFrame.completeQ
      (ReceiveFrame.consume (ReceiveFrame.new .STANDARD)
        (43 :: stuffedSpec ([2, 4, 0, 0, 0, 0] ++ [0, 0]))).state = true ∧
    ReceiveFrame.is_complete
      (ReceiveFrame.consume (ReceiveFrame.new .STANDARD)
        (43 :: stuffedSpec ([2, 4, 0, 0, 0, 0] ++ [0, 0]))).state = false :=
  checksum_mismatch_error .STANDARD [2, 4, 0, 0, 0, 0] 0 0 (by decide) (by decide) (by decide)

/-- C9: in every reachable decoder state, the id/data/address accessors
raise the frame-not-complete error before completion; on a completed
frame whose checksum failed they return 0, empty bytes and 0 without
raising. -/
theorem receiveframe_accessors (ft : FrameType) (chunks : List (List Nat)) :
    ((feedChunks (ReceiveFrame.new ft) chunks).state.complete = false →
      ReceiveFrame.getId (feedChunks (ReceiveFrame.new ft) chunks).state =
        .error .notComplete ∧
      ReceiveFrame.getData (feedChunks (ReceiveFrame.new ft) chunks).state =
        .error .notComplete ∧
      ReceiveFrame.getAddress (feedChunks (ReceiveFrame.new ft) chunks).state =
        .error .notComplete) ∧
    ((feedChunks (ReceiveFrame.new ft) chunks).state.complete = true →
     (feedChunks (ReceiveFrame.new ft) chunks).state.crcOk = false →
      ReceiveFrame.getId (feedChunks (ReceiveFrame.new ft) chunks).state = .ok 0 ∧
      ReceiveFrame.getData (feedChunks (ReceiveFrame.new ft) chunks).state = .ok [] ∧
      ReceiveFrame.getAddress (feedChunks (ReceiveFrame.new ft) chunks).state = .ok 0) := by
  constructor
  · intro h
    unfold ReceiveFrame.getId ReceiveFrame.getData ReceiveFrame.getAddress
    rw [h]
    simp
  · intro hc hcrc
    obtain ⟨_, hid0, hdata0, haddr0⟩ := feedChunks_inv chunks (ReceiveFrame.new ft)
      (fun _ => ⟨rfl, rfl, rfl, rfl⟩) hcrc
    unfold ReceiveFrame.getId ReceiveFrame.getData ReceiveFrame.getAddress
    rw [hc, hid0, hdata0, haddr0]
    simp

set_option maxRecDepth 8000 in
/-- Witness for C9: a fresh decoder (incomplete) and a completed frame
with a failed checksum. -/
theorem receiveframe_accessors_witness :
    (ReceiveFrame.getId (feedChunks (ReceiveFrame.new .STANDARD) []).state =
        .error .notComplete ∧
     ReceiveFrame.getData (feedChunks (ReceiveFrame.new .STANDARD) []).state =
        .error .notComplete ∧
     ReceiveFrame.getAddress (feedChunks (ReceiveFrame.new .STANDARD) []).state =
        .error .notComplete) ∧
    (ReceiveFrame.getId
        (feedChunks (ReceiveFrame.new .STANDARD) [[43, 2, 4, 0, 0, 0, 0, 0, 0]]).state =
      .ok 0 ∧
     ReceiveFrame.getData
        (feedChunks (ReceiveFrame.new .STANDARD) [[43, 2, 4, 0, 0, 0, 0, 0, 0]]).state =
      .ok [] ∧
     ReceiveFrame.getAddress
        (feedChunks (ReceiveFrame.new .STANDARD) [[43, 2, 4, 0, 0, 0, 0, 0, 0]]).state =
      .ok 0) :=
  ⟨(receiveframe_accessors .STANDARD []).1 (by decide),
   (receiveframe_accessors .STANDARD [[43, 2, 4, 0, 0, 0, 0, 0, 0]]).2 (by decide) (by decide)⟩

/-- C10: the `command` accessor never raises — it is the plain stored
field in every state — and it yields the uninitialized sentinel from
construction on, including after a completed frame whose checksum failed;
a non-sentinel command can only appear once a frame has decoded with a
valid checksum. -/
theorem command_accessor_sentinel (ft : FrameType) (chunks : List (List Nat)) :
    ReceiveFrame.getCommand (feedChunks (ReceiveFrame.new ft) chunks).state =
      (feedChunks (ReceiveFrame.new ft) chunks).state.command ∧
    ((feedChunks (ReceiveFrame.new ft) chunks).state.crcOk = false →
      ReceiveFrame.getCommand (feedChunks (ReceiveFrame.new ft) chunks).state =
        Command.NONE) ∧
    ReceiveFrame.getCommand (ReceiveFrame.new ft) = Command.NONE := by
  refine ⟨rfl, fun h => ?_, rfl⟩
  exact (feedChunks_inv chunks (ReceiveFrame.new ft) (fun _ => ⟨rfl, rfl, rfl, rfl⟩) h).1

set_option maxRecDepth 8000 in
/-- Witness for C10: after a completed frame with a failed checksum the
command accessor still returns the sentinel. -/
theorem command_accessor_sentinel_witness :
    ReceiveFrame.getCommand
        (feedChunks (ReceiveFrame.new .STANDARD) [[43, 2, 4, 0, 0, 0, 0, 0, 0]]).state =
      Command.NONE :=
  (command_accessor_sentinel .STANDARD [[43, 2, 4, 0, 0, 0, 0, 0, 0]]).2.1 (by decide)
